import Mathlib

/-!
Verification development for the hiring-agent workflow core
(`agents.py`: `HiringAgentWorkflow` and its stage functions, plus the
result assembly in `process`).

The Python code is shallowly embedded:

* Python dicts / JSON values become the inductive type `JVal`
  (dicts as insertion-ordered association lists, numbers as `Rat`).
* The external generative model (`_call_llm`) becomes an oracle
  parameter `LLM : String → String → Except String String`
  (prompt, system prompt ↦ reply text or a raised exception).
* Raised Python exceptions become `Except String` with the message as
  payload; `try/except` blocks become a `match` on the embedded
  `Except` value of the statements they cover.
* Raw résumé bytes are embedded by the two observations the program
  makes of them: the PDF extraction result (total, because
  `_extract_text_from_pdf` catches every exception and returns an
  error string) and the utf-8 decode result (which can raise).
* Each stage additionally returns the number of model invocations it
  attempted; this instrumentation is used to state the
  "no model call is made" parts of the specification and does not
  alter the state threaded through the stages.
-/

/-- Embedded JSON / Python-dict value.  Dicts keep insertion order, as
Python dicts do; `num` uses `Rat`, the idealisation of JSON decimal
numerals. -/
inductive JVal where
  | null : JVal
  | bool : Bool → JVal
  | num : Rat → JVal
  | str : String → JVal
  | arr : List JVal → JVal
  | obj : List (String × JVal) → JVal

instance : Inhabited JVal := ⟨JVal.null⟩

/-- Integer JSON number, built the way the parser builds numerals
without fraction or exponent. -/
def jnum (n : Int) : JVal := .num ((n : Int) : Rat)

/-- First value bound to `k` in an association list (Python dict lookup). -/
def lookupField (k : String) : List (String × JVal) → Option JVal
  | [] => none
  | (k2, v) :: rest => if k2 = k then some v else lookupField k rest

/-- Python dict assignment `d[k] = v`: overwrite the existing binding in
place, else append at the end (insertion order preserved). -/
def setField (k : String) (v : JVal) : List (String × JVal) → List (String × JVal)
  | [] => [(k, v)]
  | (k2, w) :: rest => if k2 = k then (k2, v) :: rest else (k2, w) :: setField k v rest

/-- Python `k in d`.  Every value this program applies `in` to is a dict,
so the non-dict branches (unreachable here) answer `false`. -/
def JVal.hasKey (v : JVal) (k : String) : Bool :=
  match v with
  | .obj fs => (lookupField k fs).isSome
  | _ => false

/-- Python `d.get(k, default)`.  Every receiver in this program is a dict;
the non-dict branches (unreachable here) answer the default. -/
def JVal.get (v : JVal) (k : String) (d : JVal) : JVal :=
  match v with
  | .obj fs => (lookupField k fs).getD d
  | _ => d

/-- Python string slicing `s[:n]` (by code point).  List-based so that
it reduces in time proportional to the string length. -/
def pyTake (s : String) (n : Nat) : String := String.mk (s.toList.take n)

/-- Python `d[k]`: `KeyError` when the key is missing, `TypeError` when
the receiver does not support item access. -/
def JVal.getItem (v : JVal) (k : String) : Except String JVal :=
  match v with
  | .obj fs =>
    match lookupField k fs with
    | some w => .ok w
    | none => .error ("KeyError: " ++ k)
  | _ => .error ("TypeError: object is not subscriptable")

/-- Python `d[k] = v` as an expression: `TypeError` on a non-dict. -/
def JVal.setItem (v : JVal) (k : String) (w : JVal) : Except String JVal :=
  match v with
  | .obj fs => .ok (.obj (setField k w fs))
  | _ => .error ("TypeError: object does not support item assignment")

/-! ### Characters used by the extraction regexes and the JSON grammar -/

def lbraceC : Char := Char.ofNat 123
def rbraceC : Char := Char.ofNat 125
def lbrackC : Char := Char.ofNat 91
def rbrackC : Char := Char.ofNat 93
def quoteC : Char := Char.ofNat 34
def backslashC : Char := Char.ofNat 92
def apoS : String := String.singleton (Char.ofNat 39)

/-! ### The span located by `re.search(r'\{.*\}', text, re.DOTALL)`

With `re.DOTALL`, the greedy pattern matches exactly the substring from
the first opening brace to the last closing brace, provided the last
closing brace lies strictly after the first opening brace; otherwise
there is no match.  Equivalently: drop everything before the first
opening brace, then drop everything after the last closing brace of
what remains; the match exists iff the result is nonempty. -/

def spanBetween (openC closeC : Char) (cs : List Char) : Option (List Char) :=
  if (((cs.dropWhile (fun c => !(c = openC))).reverse.dropWhile
        (fun c => !(c = closeC))).reverse).isEmpty then none
  else some (((cs.dropWhile (fun c => !(c = openC))).reverse.dropWhile
        (fun c => !(c = closeC))).reverse)

/-- The text matched by `re.search(r'\{.*\}', s, re.DOTALL)`, if any. -/
def braceSpan (s : String) : Option String :=
  (spanBetween lbraceC rbraceC s.toList).map (fun l => String.mk l)

/-- The text matched by `re.search(r'\[.*\]', s, re.DOTALL)`, if any. -/
def bracketSpan (s : String) : Option String :=
  (spanBetween lbrackC rbrackC s.toList).map (fun l => String.mk l)

/-! ### `json.loads`: a recursive-descent JSON parser

Fuel-driven; `jsonFuel` is large enough for any input of the given
length, since every recursive call consumes at least one character. -/

def isJsonWs (c : Char) : Bool :=
  c = ' ' || c = Char.ofNat 10 || c = Char.ofNat 9 || c = Char.ofNat 13

def skipWs : List Char → List Char
  | [] => []
  | c :: cs => if isJsonWs c then skipWs cs else c :: cs

def hexDigitVal (c : Char) : Option Nat :=
  if c.toNat ≥ 48 && c.toNat ≤ 57 then some (c.toNat - 48)
  else if c.toNat ≥ 97 && c.toNat ≤ 102 then some (c.toNat - 87)
  else if c.toNat ≥ 65 && c.toNat ≤ 70 then some (c.toNat - 55)
  else none

/-- Body of a JSON string literal, after the opening quote. -/
def parseStrBody : Nat → List Char → List Char → Except String (String × List Char)
  | 0, _, _ => .error ("Unterminated string")
  | _ + 1, _, [] => .error ("Unterminated string")
  | fuel + 1, acc, c :: cs =>
    if c = quoteC then .ok (String.mk acc.reverse, cs)
    else if c = backslashC then
      match cs with
      | [] => .error ("Unterminated string")
      | e :: cs2 =>
        if e = quoteC then parseStrBody fuel (quoteC :: acc) cs2
        else if e = backslashC then parseStrBody fuel (backslashC :: acc) cs2
        else if e = '/' then parseStrBody fuel ('/' :: acc) cs2
        else if e = 'b' then parseStrBody fuel (Char.ofNat 8 :: acc) cs2
        else if e = 'f' then parseStrBody fuel (Char.ofNat 12 :: acc) cs2
        else if e = 'n' then parseStrBody fuel (Char.ofNat 10 :: acc) cs2
        else if e = 'r' then parseStrBody fuel (Char.ofNat 13 :: acc) cs2
        else if e = 't' then parseStrBody fuel (Char.ofNat 9 :: acc) cs2
        else if e = 'u' then
          match cs2 with
          | h1 :: h2 :: h3 :: h4 :: cs3 =>
            match hexDigitVal h1, hexDigitVal h2, hexDigitVal h3, hexDigitVal h4 with
            | some a, some b, some c3, some d =>
              parseStrBody fuel (Char.ofNat (((a * 16 + b) * 16 + c3) * 16 + d) :: acc) cs3
            | _, _, _, _ => .error ("Invalid unicode escape")
          | _ => .error ("Invalid unicode escape")
        else .error ("Invalid escape")
    else if c.toNat < 32 then .error ("Invalid control character")
    else parseStrBody fuel (c :: acc) cs

def isDigitC (c : Char) : Bool := c.toNat ≥ 48 && c.toNat ≤ 57

def digitsToNat (ds : List Char) : Nat :=
  ds.foldl (fun a c => a * 10 + (c.toNat - 48)) 0

/-- JSON number token: `-? int frac? exp?`, leading zeros rejected. -/
def parseNumber (cs : List Char) : Except String (Rat × List Char) :=
  let (neg, cs1) :=
    match cs with
    | c :: rest => if c = '-' then (true, rest) else (false, cs)
    | [] => (false, cs)
  let intDigits := cs1.takeWhile isDigitC
  let cs2 := cs1.dropWhile isDigitC
  if intDigits.isEmpty then .error ("Expecting value")
  else if intDigits.length > 1 && intDigits.headD ' ' = '0' then .error ("Expecting value")
  else
    let ipart : Nat := digitsToNat intDigits
    let (fpart, flen, cs3) :=
      match cs2 with
      | c :: rest =>
        if c = '.' then
          let fd := rest.takeWhile isDigitC
          (digitsToNat fd, fd.length, rest.dropWhile isDigitC)
        else (0, 0, cs2)
      | [] => (0, 0, cs2)
    let fracOk : Bool :=
      match cs2 with
      | c :: _ => !(c = '.') || flen > 0
      | [] => true
    if !fracOk then .error ("Expecting fraction digits")
    else
      let (eres, cs4) :=
        match cs3 with
        | c :: rest =>
          if c = 'e' || c = 'E' then
            let (esign, rest2) :=
              match rest with
              | s :: r2 => if s = '-' then (true, r2) else if s = '+' then (false, r2) else (false, rest)
              | [] => (false, rest)
            let ed := rest2.takeWhile isDigitC
            if ed.isEmpty then (none, cs3)
            else (some (esign, digitsToNat ed), rest2.dropWhile isDigitC)
          else (none, cs3)
        | [] => (none, cs3)
      match eres with
      | none =>
        if flen = 0 then
          .ok ((((if neg then -(ipart : Int) else (ipart : Int)) : Int) : Rat), cs3)
        else
          let base : Rat := (ipart : Rat) + (fpart : Rat) / ((10 : Rat) ^ flen)
          .ok ((if neg then -base else base), cs3)
      | some (esign, e) =>
        let base : Rat := (ipart : Rat) + (fpart : Rat) / ((10 : Rat) ^ flen)
        let scaled : Rat := if esign then base / ((10 : Rat) ^ e) else base * ((10 : Rat) ^ e)
        .ok ((if neg then -scaled else scaled), cs4)

mutual

def parseValue : Nat → List Char → Except String (JVal × List Char)
  | 0, _ => .error ("Recursion limit")
  | fuel + 1, cs =>
    match skipWs cs with
    | [] => .error ("Expecting value")
    | c :: rest =>
      if c = lbraceC then parseMembers fuel [] rest true
      else if c = lbrackC then parseElems fuel [] rest true
      else if c = quoteC then
        match parseStrBody fuel [] rest with
        | .ok (s, cs2) => .ok (.str s, cs2)
        | .error e => .error e
      else if c = 't' then
        match rest with
        | 'r' :: 'u' :: 'e' :: cs2 => .ok (.bool true, cs2)
        | _ => .error ("Expecting value")
      else if c = 'f' then
        match rest with
        | 'a' :: 'l' :: 's' :: 'e' :: cs2 => .ok (.bool false, cs2)
        | _ => .error ("Expecting value")
      else if c = 'n' then
        match rest with
        | 'u' :: 'l' :: 'l' :: cs2 => .ok (.null, cs2)
        | _ => .error ("Expecting value")
      else if c = '-' || isDigitC c then
        match parseNumber (c :: rest) with
        | .ok (q, cs2) => .ok (.num q, cs2)
        | .error e => .error e
      else .error ("Expecting value")

/-- Members of an object, after the opening brace.  `first` is true if no
member has been parsed yet (so a closing brace is allowed). -/
def parseMembers : Nat → List (String × JVal) → List Char → Bool → Except String (JVal × List Char)
  | 0, _, _, _ => .error ("Recursion limit")
  | fuel + 1, acc, cs, first =>
    match skipWs cs with
    | [] => .error ("Expecting property name")
    | c :: rest =>
      if c = rbraceC && first then .ok (.obj acc, rest)
      else if c = quoteC then
        match parseStrBody fuel [] rest with
        | .error e => .error e
        | .ok (k, cs2) =>
          match skipWs cs2 with
          | c1 :: cs3 =>
            if c1 = ':' then
              match parseValue fuel cs3 with
              | .error e => .error e
              | .ok (v, cs4) =>
                match skipWs cs4 with
                | c2 :: cs5 =>
                  if c2 = ',' then parseMembers fuel (setField k v acc) cs5 false
                  else if c2 = rbraceC then .ok (.obj (setField k v acc), cs5)
                  else .error ("Expecting comma delimiter")
                | [] => .error ("Expecting comma delimiter")
            else .error ("Expecting colon delimiter")
          | [] => .error ("Expecting colon delimiter")
      else .error ("Expecting property name")

/-- Elements of an array, after the opening bracket. -/
def parseElems : Nat → List JVal → List Char → Bool → Except String (JVal × List Char)
  | 0, _, _, _ => .error ("Recursion limit")
  | fuel + 1, acc, cs, first =>
    match skipWs cs with
    | [] => .error ("Expecting value")
    | c :: rest =>
      if c = rbrackC && first then .ok (.arr acc.reverse, rest)
      else
        match parseValue fuel (c :: rest) with
        | .error e => .error e
        | .ok (v, cs2) =>
          match skipWs cs2 with
          | c2 :: cs3 =>
            if c2 = ',' then parseElems fuel (v :: acc) cs3 false
            else if c2 = rbrackC then .ok (.arr (v :: acc).reverse, cs3)
            else .error ("Expecting comma delimiter")
          | [] => .error ("Expecting comma delimiter")

end

/-- `json.loads`: parse one JSON value and require only whitespace after it. -/
def jsonLoads (s : String) : Except String JVal :=
  match parseValue (4 * s.toList.length + 8) s.toList with
  | .error e => .error e
  | .ok (v, rest) =>
    if (skipWs rest).isEmpty then .ok v else .error ("Extra data")

/-! ### Python value rendering and sequence operations -/

mutual

/-- Python `repr` of an embedded value, as used for values interpolated
into f-strings and inside `str` of containers.  (A non-integer number
renders as a fraction rather than Python's decimal float notation;
no claim depends on that spelling.) -/
def pyRepr : JVal → String
  | .null => "None"
  | .bool b => if b then "True" else "False"
  | .num q => if q.den = 1 then toString q.num else toString q
  | .str s => apoS ++ s ++ apoS
  | .arr xs => String.singleton lbrackC ++ pyReprList xs ++ String.singleton rbrackC
  | .obj kvs => String.singleton lbraceC ++ pyReprFields kvs ++ String.singleton rbraceC

def pyReprList : List JVal → String
  | [] => ""
  | [x] => pyRepr x
  | x :: y :: xs => pyRepr x ++ ", " ++ pyReprList (y :: xs)

def pyReprFields : List (String × JVal) → String
  | [] => ""
  | [(k, v)] => apoS ++ k ++ apoS ++ ": " ++ pyRepr v
  | (k, v) :: f :: fs => apoS ++ k ++ apoS ++ ": " ++ pyRepr v ++ ", " ++ pyReprFields (f :: fs)

end

/-- Python `str()`, as applied by f-string interpolation. -/
def pyStr : JVal → String
  | .str s => s
  | v => pyRepr v

def allStrs : List JVal → Option (List String)
  | [] => some []
  | .str s :: xs => (allStrs xs).map (fun r => s :: r)
  | _ :: _ => none

/-- Python `sep.join(v)`: joins a list of strings (`TypeError` if an
element is not a string), the characters of a string, or the keys of a
dict; anything non-iterable raises `TypeError`. -/
def pyJoin (sep : String) (v : JVal) : Except String String :=
  match v with
  | .arr xs =>
    match allStrs xs with
    | some ss => .ok (String.intercalate sep ss)
    | none => .error ("TypeError: sequence item expected str instance")
  | .str s => .ok (String.intercalate sep (s.toList.map (fun c => String.singleton c)))
  | .obj kvs => .ok (String.intercalate sep (kvs.map (fun p => p.1)))
  | _ => .error ("TypeError: can only join an iterable")

/-- Python `v[:n]` on sequences; `TypeError` on non-sequences. -/
def pySlice (v : JVal) (n : Nat) : Except String JVal :=
  match v with
  | .arr xs => .ok (.arr (xs.take n))
  | .str s => .ok (.str (pyTake s n))
  | _ => .error ("TypeError: object is not subscriptable")

/-- Numeric view used by Python comparisons (`bool` is an `int` subtype). -/
def ratOfNum : JVal → Option Rat
  | .num q => some q
  | .bool b => some (if b then 1 else 0)
  | _ => none

/-- Python `a < b` for the value shapes this program compares: numbers
(including booleans) with numbers, strings with strings; any other pair
raises `TypeError`, exactly as CPython's `sorted` does on mixed keys. -/
def jlt (a b : JVal) : Except String Bool :=
  match ratOfNum a, ratOfNum b with
  | some x, some y => .ok (decide (x < y))
  | _, _ =>
    match a, b with
    | .str s, .str t => .ok (decide (s < t))
    | _, _ => .error ("TypeError: comparison not supported between instances of these types")

/-! ### The StructuredExtractor contract (section 4.2 of the spec)

The stages inline this as `re.search(r'\{.*\}', response, re.DOTALL)`
followed by `json.loads`; the two distinct failure branches of that
inline code (no regex match / `json.loads` raising) are the two error
constructors here. -/

inductive ExtractErr where
  | noJsonFound : ExtractErr
  | malformedJson : String → ExtractErr

/-- Object extraction: the substring from the first opening brace to the
last closing brace, fed to `json.loads`. -/
def extractJson (text : String) : Except ExtractErr JVal :=
  match braceSpan text with
  | none => .error .noJsonFound
  | some span =>
    match jsonLoads span with
    | .ok v => .ok v
    | .error m => .error (.malformedJson m)

/-- Array extraction: the substring from the first opening bracket to the
last closing bracket, fed to `json.loads`. -/
def extractJsonArr (text : String) : Except ExtractErr JVal :=
  match bracketSpan text with
  | none => .error .noJsonFound
  | some span =>
    match jsonLoads span with
    | .ok v => .ok v
    | .error m => .error (.malformedJson m)

/-! ### External interface types -/

/-- The external generative service (`_call_llm`):
prompt, system prompt ↦ reply text, or a raised exception. -/
abbrev LLM := String → String → Except String String

/-- Raw uploaded bytes, embedded by the two observations the program
makes of them.  `pdfExtract` is total because `_extract_text_from_pdf`
catches every exception and returns an error string; `utf8Decode` is
`content.decode("utf-8")`, which can raise. -/
structure RawContent where
  pdfExtract : String
  utf8Decode : Except String String

/-- One element of the uploaded résumé batch handed to the workflow. -/
structure UploadedResume where
  filename : String
  content : RawContent
  content_type : String

/-- `WorkflowState` after the parse stage has replaced `resumes` with
the parsed records. -/
structure WState where
  job_description : String
  resumes : List JVal
  job_analysis : JVal
  candidate_evaluations : List JVal

/-- Lines 84–87 of `agents.py`: text extraction before the `try` block. -/
def extractTextStep (r : UploadedResume) : Except String String :=
  if r.content_type = "application/pdf" then .ok r.content.pdfExtract
  else r.content.utf8Decode

/-! ### Prompt construction (the f-string templates of `agents.py`) -/

def parseSystemPrompt : String :=
  "You are a resume parser. Extract key information from resumes and return it in JSON format.\nFocus on concrete details, not just keywords. Look for evidence of actual work and accomplishments."

def parsePrompt (text : String) : String :=
  "Parse this resume and extract the following information in JSON format:\n\x7b\n  \"name\": \"candidate name\",\n  \"email\": \"email address\",\n  \"phone\": \"phone number\",\n  \"experience_years\": number,\n  \"skills\": [\"list of skills with context\"],\n  \"experience\": [\"list of work experiences with concrete details\"],\n  \"education\": [\"educational background\"],\n  \"projects\": [\"notable projects with outcomes\"],\n  \"summary\": \"brief professional summary\"\n\x7d\n\nResume text:\n"
    ++ pyTake text 4000
    ++ "\n\nReturn ONLY the JSON object, no other text."

def analyzeSystemPrompt : String :=
  "You are a job requirements analyzer. Extract key requirements from job descriptions.\nFocus on must-have skills, experience levels, and important qualifications."

def analyzePrompt (jd : String) : String :=
  "Analyze this job description and extract requirements in JSON format:\n\x7b\n  \"title\": \"job title\",\n  \"experience_required\": number of years,\n  \"required_skills\": [\"list of must-have skills\"],\n  \"preferred_skills\": [\"nice-to-have skills\"],\n  \"education_requirements\": [\"education requirements\"],\n  \"key_responsibilities\": [\"main responsibilities\"],\n  \"evaluation_criteria\": [\"what matters most for this role\"]\n\x7d\n\nJob Description:\n"
    ++ pyTake jd 3000
    ++ "\n\nReturn ONLY the JSON object, no other text."

def evalSystemPrompt : String :=
  "You are an expert technical recruiter. Evaluate candidates based on:\n1. DEPTH over keywords - look for concrete examples and achievements\n2. RELEVANCE - how well experience matches the role\n3. CONSISTENCY - check for logical career progression\n4. RED FLAGS - identify vague claims or keyword stuffing\n\nScore candidates objectively based on evidence, not just keyword matches."

/-- The evaluation prompt f-string (lines 183–216).  The fallible
interpolations (`join`, slicing) are sequenced in the order Python
evaluates them; a raised `TypeError` here escapes the stage, because the
prompt is built before the `try` block. -/
def evalPrompt (ja r : JVal) : Except String String := do
  let nameS := pyStr (r.get ("name") (.str ("Unknown")))
  let emailS := pyStr (r.get ("email") (.str ("N/A")))
  let titleS := pyStr (ja.get ("title") (.str ("N/A")))
  let expReqS := pyStr (ja.get ("experience_required") (.str ("N/A")))
  let reqSkillsS ← pyJoin (", ") (ja.get ("required_skills") (.arr []))
  let keyRespV ← pySlice (ja.get ("key_responsibilities") (.arr [])) 3
  let keyRespS ← pyJoin (", ") keyRespV
  let expYearsS := pyStr (r.get ("experience_years") (.str ("N/A")))
  let skillsV ← pySlice (r.get ("skills") (.arr [])) 10
  let skillsS ← pyJoin (", ") skillsV
  let expDetV ← pySlice (r.get ("experience") (.arr [])) 3
  let expDetS ← pyJoin (" | ") expDetV
  let eduS ← pyJoin (", ") (r.get ("education") (.arr []))
  pure ("Evaluate this candidate for the job and return a JSON evaluation:\n\x7b\n  \"name\": \""
    ++ nameS
    ++ "\",\n  \"email\": \""
    ++ emailS
    ++ "\",\n  \"score\": total score (0-100),\n  \"breakdown\": \x7b\n    \"experience\": score 0-30 (relevance and depth of experience),\n    \"skills\": score 0-30 (technical skills match),\n    \"education\": score 0-20 (educational fit),\n    \"overall_fit\": score 0-20 (career trajectory, cultural fit)\n  \x7d,\n  \"strengths\": [\"list 3-5 key strengths with specific examples\"],\n  \"gaps\": [\"list 2-4 knowledge gaps or concerns\"],\n  \"red_flags\": [\"any concerns about keyword stuffing or vague claims\"],\n  \"reasoning\": \"detailed explanation of scoring with specific evidence\"\n\x7d\n\nJob Requirements:\n- Title: "
    ++ titleS
    ++ "\n- Experience: "
    ++ expReqS
    ++ " years\n- Required Skills: "
    ++ reqSkillsS
    ++ "\n- Key Responsibilities: "
    ++ keyRespS
    ++ "\n\nCandidate Resume:\nName: "
    ++ nameS
    ++ "\nExperience: "
    ++ expYearsS
    ++ " years\nSkills: "
    ++ skillsS
    ++ "\nExperience Details: "
    ++ expDetS
    ++ "\nEducation: "
    ++ eduS
    ++ "\n\nIMPORTANT: Look for concrete examples and achievements, not just keyword lists. \nPenalize vague claims without supporting details.\n\nReturn ONLY the JSON object, no other text.")

def genqSystemPrompt : String :=
  "You are an expert interviewer. Generate probing questions that:\n1. Verify depth of claimed skills\n2. Explore gaps or concerns\n3. Assess problem-solving ability\n4. Check cultural and role fit\n\nQuestions should be specific to the candidate"
    ++ apoS
    ++ "s background."

/-- The question-generation prompt f-string (lines 251–268); built
before that stage's `try` block. -/
def genqPrompt (ja ev : JVal) : Except String String := do
  let strengthsS ← pyJoin (", ") (ev.get ("strengths") (.arr []))
  let gapsS ← pyJoin (", ") (ev.get ("gaps") (.arr []))
  pure ("Generate 5-7 targeted interview questions for this candidate.\n\nJob: "
    ++ pyStr (ja.get ("title") (.str ("N/A")))
    ++ "\nCandidate: "
    ++ pyStr (ev.get ("name") (.str ("Unknown")))
    ++ "\nScore: "
    ++ pyStr (ev.get ("score") (.str ("N/A")))
    ++ "/100\nStrengths: "
    ++ strengthsS
    ++ "\nGaps: "
    ++ gapsS
    ++ "\n\nReturn as a JSON array of strings:\n[\"Question 1?\", \"Question 2?\", ...]\n\nFocus on:\n- Verifying specific skills mentioned in their resume\n- Exploring their knowledge gaps\n- Understanding their problem-solving approach\n- Assessing their fit for key responsibilities\n\nReturn ONLY the JSON array, no other text.")

/-! ### Stage: parse résumés (`_parse_resumes`, lines 78–128) -/

/-- Lines 114–119: what the parse `try` block does with the model
reply.  `.ok none` is the `if json_match:` test failing — nothing is
appended. -/
def parseRespond (filename text response : String) : Except String (Option JVal) :=
  match braceSpan response with
  | none => .ok none
  | some sp =>
    match jsonLoads sp with
    | .error e => .error e
    | .ok pd =>
      match pd.setItem ("filename") (.str filename) with
      | .error e => .error e
      | .ok pd2 =>
        match pd2.setItem ("raw_text") (.str (pyTake text 2000)) with
        | .error e => .error e
        | .ok pd3 => .ok (some pd3)

/-- The `try` block of one parse iteration (lines 111–119). -/
def parseTryBody (llm : LLM) (text filename : String) : Except String (Option JVal) :=
  match llm (parsePrompt text) parseSystemPrompt with
  | .error e => .error e
  | .ok response => parseRespond filename text response

/-- The error-variant record appended by the `except` handler
(lines 121–125). -/
def parseErrRecord (filename e rawText : String) : JVal :=
  .obj [("filename", .str filename), ("error", .str e), ("raw_text", .str rawText)]

/-- The `except Exception` handler around the parse `try` block: a
raised exception is converted into the error-variant record. -/
def parseCatch (filename text : String) : Except String (Option JVal) → Option JVal
  | .ok o => o
  | .error e => some (parseErrRecord filename e (pyTake text 2000))

/-- One iteration of the parse loop.  Text extraction happens before
the `try` block, so its exception escapes. -/
def parseOne (llm : LLM) (u : UploadedResume) : Except String (Option JVal × Nat) :=
  match extractTextStep u with
  | .error e => .error e
  | .ok text => .ok (parseCatch u.filename text (parseTryBody llm text u.filename), 1)

def parseLoop (llm : LLM) : List UploadedResume → Except String (List JVal × Nat)
  | [] => .ok ([], 0)
  | u :: us =>
    match parseOne llm u with
    | .error e => .error e
    | .ok (o, n) =>
      match parseLoop llm us with
      | .error e => .error e
      | .ok (rest, m) =>
        match o with
        | some v => .ok (v :: rest, n + m)
        | none => .ok (rest, n + m)

/-- The parse stage, including the construction of the initial state by
`process` (lines 285–290): `job_analysis` starts as the empty dict and
`candidate_evaluations` as the empty list. -/
def parse_resumes (llm : LLM) (jd : String) (ups : List UploadedResume) : Except String (WState × Nat) :=
  match parseLoop llm ups with
  | .error e => .error e
  | .ok (parsed, n) =>
    .ok ({ job_description := jd, resumes := parsed, job_analysis := .obj [],
           candidate_evaluations := [] }, n)

/-! ### Stage: analyze job (`_analyze_job`, lines 130–160) -/

/-- Lines 153–156: what the analyze `try` block does with the reply. -/
def analyzeRespond (response : String) : Except String (Option JVal) :=
  match braceSpan response with
  | none => .ok none
  | some sp =>
    match jsonLoads sp with
    | .error e => .error e
    | .ok ja => .ok (some ja)

def analyzeTryBody (llm : LLM) (prompt : String) : Except String (Option JVal) :=
  match llm prompt analyzeSystemPrompt with
  | .error e => .error e
  | .ok response => analyzeRespond response

/-- The analyze stage: on a reply with a parseable brace span the
analysis is replaced; when the regex finds no span the state is left
untouched (`job_analysis` keeps its previous value); a raised exception
yields the error variant.  The stage itself never raises. -/
def analyze_job (llm : LLM) (st : WState) : WState × Nat :=
  match analyzeTryBody llm (analyzePrompt st.job_description) with
  | .ok (some ja) => ({ st with job_analysis := ja }, 1)
  | .ok none => (st, 1)
  | .error e => ({ st with job_analysis := .obj [("error", .str e)] }, 1)

/-! ### Stage: evaluate candidates (`_evaluate_candidates`, lines 162–233) -/

/-- Lines 220–224: what the evaluation `try` block does with the reply. -/
def evalRespond (r : JVal) (response : String) : Except String (Option JVal) :=
  match braceSpan response with
  | none => .ok none
  | some sp =>
    match jsonLoads sp with
    | .error e => .error e
    | .ok ev =>
      match r.getItem ("filename") with
      | .error e => .error e
      | .ok fn =>
        match ev.setItem ("filename") fn with
        | .error e => .error e
        | .ok ev2 => .ok (some ev2)

/-- The `try` block of one evaluation iteration (lines 218–224). -/
def evalTryBody (llm : LLM) (r : JVal) (prompt : String) : Except String (Option JVal) :=
  match llm prompt evalSystemPrompt with
  | .error e => .error e
  | .ok response => evalRespond r response

/-- The `except` handler (lines 225–230); it reads `resume["filename"]`
itself, so a `KeyError` there would escape. -/
def evalExceptHandler (r : JVal) (e : String) : Except String JVal :=
  match r.getItem ("filename") with
  | .error e2 => .error e2
  | .ok fn =>
    .ok (.obj [("filename", fn), ("name", r.get ("name") (.str ("Unknown"))), ("error", .str e)])

/-- The `except Exception` handler around the evaluation `try` block. -/
def evalCatch (r : JVal) : Except String (Option JVal) → Except String (Option JVal)
  | .ok o => .ok o
  | .error e =>
    match evalExceptHandler r e with
    | .error e2 => .error e2
    | .ok erec => .ok (some erec)

/-- One iteration of the evaluation loop (lines 175–230).  A résumé in
error state is forwarded as an error-variant evaluation without any
model call; otherwise the prompt is built (outside the `try` block) and
the `try` block runs. -/
def evalOne (llm : LLM) (ja r : JVal) : Except String (Option JVal × Nat) :=
  if r.hasKey ("error") then
    match r.getItem ("filename") with
    | .error e => .error e
    | .ok fn =>
      match r.getItem ("error") with
      | .error e => .error e
      | .ok er => .ok (some (.obj [("filename", fn), ("error", er)]), 0)
  else
    match evalPrompt ja r with
    | .error e => .error e
    | .ok prompt =>
      match evalCatch r (evalTryBody llm r prompt) with
      | .error e2 => .error e2
      | .ok o => .ok (o, 1)

def evalLoop (llm : LLM) (ja : JVal) : List JVal → Except String (List JVal × Nat)
  | [] => .ok ([], 0)
  | r :: rs =>
    match evalOne llm ja r with
    | .error e => .error e
    | .ok (o, n) =>
      match evalLoop llm ja rs with
      | .error e => .error e
      | .ok (rest, m) =>
        match o with
        | some v => .ok (v :: rest, n + m)
        | none => .ok (rest, n + m)

def evaluate_candidates (llm : LLM) (st : WState) : Except String (WState × Nat) :=
  match evalLoop llm st.job_analysis st.resumes with
  | .error e => .error e
  | .ok (evs, n) => .ok ({ st with candidate_evaluations := evs }, n)

/-! ### Stage: generate questions (`_generate_questions`, lines 235–281) -/

/-- Lines 272–277: what the question-generation `try` block does with
the reply, including the `else` branch that assigns the empty list when
the reply contains no bracketed span. -/
def genRespond (ev : JVal) (response : String) : Except String JVal :=
  match bracketSpan response with
  | some sp =>
    match jsonLoads sp with
    | .error e => .error e
    | .ok qs => ev.setItem ("interview_questions") qs
  | none => ev.setItem ("interview_questions") (.arr [])

/-- The `try` block of one question-generation iteration (lines 270–277). -/
def genTryBody (llm : LLM) (ev : JVal) (prompt : String) : Except String JVal :=
  match llm prompt genqSystemPrompt with
  | .error e => .error e
  | .ok response => genRespond ev response

/-- The `except` handler (line 279): attach a single-element array with
a human-readable error string.  The assignment itself can raise, and
then escapes. -/
def genCatch (ev : JVal) : Except String JVal → Except String JVal
  | .ok ev2 => .ok ev2
  | .error e =>
    ev.setItem ("interview_questions") (.arr [.str ("Error generating questions: " ++ e)])

/-- One iteration of the question-generation loop (lines 247–279).
Evaluations already in error state are skipped entirely. -/
def genOne (llm : LLM) (ja ev : JVal) : Except String (JVal × Nat) :=
  if ev.hasKey ("error") then .ok (ev, 0)
  else
    match genqPrompt ja ev with
    | .error e => .error e
    | .ok prompt =>
      match genCatch ev (genTryBody llm ev prompt) with
      | .error e2 => .error e2
      | .ok ev2 => .ok (ev2, 1)

def genLoop (llm : LLM) (ja : JVal) : List JVal → Except String (List JVal × Nat)
  | [] => .ok ([], 0)
  | ev :: evs =>
    match genOne llm ja ev with
    | .error e => .error e
    | .ok (ev2, n) =>
      match genLoop llm ja evs with
      | .error e => .error e
      | .ok (rest, m) => .ok (ev2 :: rest, n + m)

def generate_questions (llm : LLM) (st : WState) : Except String (WState × Nat) :=
  match genLoop llm st.job_analysis st.candidate_evaluations with
  | .error e => .error e
  | .ok (evs, n) => .ok ({ st with candidate_evaluations := evs }, n)

/-! ### Result assembly and the full run (`process`, lines 283–305) -/

/-- The sort key `lambda x: x.get("score", 0)`. -/
def scoreKey (e : JVal) : JVal := e.get ("score") (.num 0)

/-- Insert into an already-sorted (descending, stable) list, comparing
keys with Python `<`; a `TypeError` raised by a comparison propagates,
as it does out of CPython's `sorted`. -/
def insertDescE (x : JVal) : List JVal → Except String (List JVal)
  | [] => .ok [x]
  | y :: ys =>
    match jlt (scoreKey x) (scoreKey y) with
    | .error e => .error e
    | .ok b =>
      if b then
        match insertDescE x ys with
        | .error e => .error e
        | .ok r => .ok (y :: r)
      else .ok (x :: y :: ys)

/-- `sorted(evaluations, key=lambda x: x.get("score", 0), reverse=True)`:
a stable descending sort.  On totally-comparable keys this computes
exactly what CPython's stable sort computes; on incomparable keys both
raise `TypeError`. -/
def pySortedDesc : List JVal → Except String (List JVal)
  | [] => .ok []
  | x :: xs =>
    match pySortedDesc xs with
    | .error e => .error e
    | .ok r => insertDescE x r

/-- The output projection built by `process`. -/
structure PResult where
  job_analysis : JVal
  candidates : List JVal

/-- `process`: build the initial state, run the four stages in the
declared chain order, then assemble the result.  The second component
counts the model invocations attempted. -/
def process (llm : LLM) (jd : String) (ups : List UploadedResume) : Except String (PResult × Nat) :=
  match parse_resumes llm jd ups with
  | .error e => .error e
  | .ok (st1, n1) =>
    let (st2, n2) := analyze_job llm st1
    match evaluate_candidates llm st2 with
    | .error e => .error e
    | .ok (st3, n3) =>
      match generate_questions llm st3 with
      | .error e => .error e
      | .ok (st4, n4) =>
        match pySortedDesc st4.candidate_evaluations with
        | .error e => .error e
        | .ok cands =>
          .ok ({ job_analysis := st4.job_analysis, candidates := cands }, n1 + n2 + n3 + n4)

/-! ### Basic lemmas about dict primitives -/

lemma lookupField_setField (k : String) (v : JVal) (fs : List (String × JVal)) :
    lookupField k (setField k v fs) = some v := by
  induction fs with
  | nil => simp [setField, lookupField]
  | cons hd tl ih =>
    by_cases h : hd.1 = k
    · simp [setField, lookupField, h]
    · simp [setField, lookupField, h, ih]

lemma setItem_hasKey (v w : JVal) (k : String) (out : JVal)
    (h : v.setItem k w = .ok out) : out.hasKey k = true := by
  cases v with
  | obj fs =>
    simp [JVal.setItem] at h
    subst h
    simp [JVal.hasKey, lookupField_setField]
  | null => simp [JVal.setItem] at h
  | bool b => simp [JVal.setItem] at h
  | num q => simp [JVal.setItem] at h
  | str s => simp [JVal.setItem] at h
  | arr xs => simp [JVal.setItem] at h

lemma setItem_get (v w : JVal) (k : String) (d : JVal) (out : JVal)
    (h : v.setItem k w = .ok out) : out.get k d = w := by
  cases v with
  | obj fs =>
    simp [JVal.setItem] at h
    subst h
    simp [JVal.get, lookupField_setField]
  | null => simp [JVal.setItem] at h
  | bool b => simp [JVal.setItem] at h
  | num q => simp [JVal.setItem] at h
  | str s => simp [JVal.setItem] at h
  | arr xs => simp [JVal.setItem] at h

/-! ### Generic rewriting lemmas for settling concrete runs

These expose the oracle call of each per-item unit, so that a run with
a given oracle behaviour can be computed without ever comparing the
(long) prompt strings. -/

lemma parseOne_text (llm : LLM) (u : UploadedResume) (text : String)
    (hx : extractTextStep u = .ok text) :
    parseOne llm u = .ok (parseCatch u.filename text (parseTryBody llm text u.filename), 1) := by
  unfold parseOne; rw [hx]

lemma parseTryBody_reply (llm : LLM) (text fn reply : String)
    (hr : llm (parsePrompt text) parseSystemPrompt = .ok reply) :
    parseTryBody llm text fn = parseRespond fn text reply := by
  unfold parseTryBody; rw [hr]

lemma parseTryBody_raise (llm : LLM) (text fn e : String)
    (hr : llm (parsePrompt text) parseSystemPrompt = .error e) :
    parseTryBody llm text fn = .error e := by
  unfold parseTryBody; rw [hr]

lemma analyze_job_reply (llm : LLM) (st : WState) (reply : String)
    (hr : llm (analyzePrompt st.job_description) analyzeSystemPrompt = .ok reply) :
    analyze_job llm st =
      (match analyzeRespond reply with
       | .ok (some ja) => ({ st with job_analysis := ja }, 1)
       | .ok none => (st, 1)
       | .error e => ({ st with job_analysis := .obj [("error", .str e)] }, 1)) := by
  unfold analyze_job analyzeTryBody
  rw [hr]

lemma evalOne_reply (llm : LLM) (ja r : JVal) (pv reply : String)
    (hke : r.hasKey ("error") = false)
    (hpv : evalPrompt ja r = .ok pv)
    (hr : llm pv evalSystemPrompt = .ok reply) :
    evalOne llm ja r =
      (match evalCatch r (evalRespond r reply) with
       | .error e2 => .error e2
       | .ok o => .ok (o, 1)) := by
  unfold evalOne evalTryBody
  rw [if_neg (by simp [hke]), hpv]
  simp only [hr]

lemma evalOne_raise (llm : LLM) (ja r : JVal) (pv e : String)
    (hke : r.hasKey ("error") = false)
    (hpv : evalPrompt ja r = .ok pv)
    (hr : llm pv evalSystemPrompt = .error e) :
    evalOne llm ja r =
      (match evalCatch r (.error e) with
       | .error e2 => .error e2
       | .ok o => .ok (o, 1)) := by
  unfold evalOne evalTryBody
  rw [if_neg (by simp [hke]), hpv]
  simp only [hr]

lemma genOne_reply (llm : LLM) (ja ev : JVal) (pv reply : String)
    (hke : ev.hasKey ("error") = false)
    (hpv : genqPrompt ja ev = .ok pv)
    (hr : llm pv genqSystemPrompt = .ok reply) :
    genOne llm ja ev =
      (match genCatch ev (genRespond ev reply) with
       | .error e2 => .error e2
       | .ok ev2 => .ok (ev2, 1)) := by
  unfold genOne genTryBody
  rw [if_neg (by simp [hke]), hpv]
  simp only [hr]

/-! ### Correctness of the stable descending sort

`sortDescP` is a pure model of the sort used when every key is numeric;
`pySortedDesc` agrees with it there.  Together with permutation,
pairwise sortedness and the filter characterisation of stability this
pins the sorted output uniquely. -/

def ratKey (e : JVal) : Rat := (ratOfNum (scoreKey e)).getD 0

def insertDescP (x : JVal) : List JVal → List JVal
  | [] => [x]
  | y :: ys => if ratKey x < ratKey y then y :: insertDescP x ys else x :: y :: ys

def sortDescP : List JVal → List JVal
  | [] => []
  | x :: xs => insertDescP x (sortDescP xs)

lemma insertDescE_perm (x : JVal) (l out : List JVal)
    (h : insertDescE x l = .ok out) : out.Perm (x :: l) := by
  induction l generalizing out with
  | nil =>
    simp only [insertDescE] at h
    injection h with h
    subst h
    exact List.Perm.refl _
  | cons y ys ih =>
    simp only [insertDescE] at h
    cases hj : jlt (scoreKey x) (scoreKey y) with
    | error e => rw [hj] at h; exact absurd h (by simp)
    | ok b =>
      rw [hj] at h
      cases b with
      | false =>
        simp only [if_neg] at h
        injection h with h
        subst h
        exact List.Perm.refl _
      | true =>
        simp only [if_pos] at h
        cases hi : insertDescE x ys with
        | error e => rw [hi] at h; exact absurd h (by simp)
        | ok r =>
          rw [hi] at h
          injection h with h
          subst h
          exact ((ih r hi).cons y).trans (List.Perm.swap x y ys)

lemma pySortedDesc_perm (l out : List JVal)
    (h : pySortedDesc l = .ok out) : out.Perm l := by
  induction l generalizing out with
  | nil =>
    simp only [pySortedDesc] at h
    injection h with h
    subst h
    exact List.Perm.refl _
  | cons x xs ih =>
    simp only [pySortedDesc] at h
    cases hs : pySortedDesc xs with
    | error e => rw [hs] at h; exact absurd h (by simp)
    | ok r =>
      rw [hs] at h
      exact (insertDescE_perm x r out h).trans ((ih r hs).cons x)

lemma insertDescP_mem (x : JVal) (l : List JVal) (z : JVal) :
    z ∈ insertDescP x l ↔ z = x ∨ z ∈ l := by
  induction l with
  | nil => simp [insertDescP]
  | cons y ys ih =>
    by_cases h : ratKey x < ratKey y
    · simp only [insertDescP, if_pos h, List.mem_cons, ih]
      tauto
    · simp [insertDescP, h]

lemma insertDescP_pairwise (x : JVal) (l : List JVal)
    (h : l.Pairwise (fun a b => ratKey b ≤ ratKey a)) :
    (insertDescP x l).Pairwise (fun a b => ratKey b ≤ ratKey a) := by
  induction l with
  | nil => simp [insertDescP]
  | cons y ys ih =>
    rcases List.pairwise_cons.mp h with ⟨hy, hys⟩
    by_cases hlt : ratKey x < ratKey y
    · rw [insertDescP, if_pos hlt]
      refine List.pairwise_cons.mpr ⟨?_, ih hys⟩
      intro z hz
      rcases (insertDescP_mem x ys z).mp hz with hz1 | hz2
      · subst hz1; exact le_of_lt hlt
      · exact hy z hz2
    · rw [insertDescP, if_neg hlt]
      refine List.pairwise_cons.mpr ⟨?_, h⟩
      intro z hz
      rcases List.mem_cons.mp hz with hz1 | hz2
      · subst hz1; exact le_of_not_lt hlt
      · exact le_trans (hy z hz2) (le_of_not_lt hlt)

lemma sortDescP_pairwise (l : List JVal) :
    (sortDescP l).Pairwise (fun a b => ratKey b ≤ ratKey a) := by
  induction l with
  | nil => simp [sortDescP]
  | cons x xs ih => exact insertDescP_pairwise x (sortDescP xs) ih

lemma insertDescP_filter (x : JVal) (l : List JVal) (q : Rat) :
    (insertDescP x l).filter (fun e => decide (ratKey e = q)) =
      if ratKey x = q then x :: l.filter (fun e => decide (ratKey e = q))
      else l.filter (fun e => decide (ratKey e = q)) := by
  induction l with
  | nil =>
    by_cases hx : ratKey x = q <;> simp [insertDescP, List.filter, hx]
  | cons y ys ih =>
    by_cases hlt : ratKey x < ratKey y
    · rw [insertDescP, if_pos hlt]
      by_cases hx : ratKey x = q
      · have hy : ¬(ratKey y = q) := by
          intro hyq
          subst hx
          rw [hyq] at hlt
          exact lt_irrefl _ hlt
        simp [List.filter_cons, hx, hy, ih]
      · simp [List.filter_cons, hx, ih]
    · rw [insertDescP, if_neg hlt]
      by_cases hx : ratKey x = q <;> simp [List.filter_cons, hx]

lemma sortDescP_filter (l : List JVal) (q : Rat) :
    (sortDescP l).filter (fun e => decide (ratKey e = q)) =
      l.filter (fun e => decide (ratKey e = q)) := by
  induction l with
  | nil => rfl
  | cons x xs ih =>
    rw [sortDescP, insertDescP_filter]
    by_cases hx : ratKey x = q <;> simp [List.filter_cons, hx, ih]

lemma insertDescE_of_num (x : JVal) (l : List JVal) (qx : Rat)
    (hx : scoreKey x = .num qx)
    (hl : ∀ y ∈ l, ∃ qy : Rat, scoreKey y = .num qy) :
    insertDescE x l = .ok (insertDescP x l) := by
  induction l with
  | nil => rfl
  | cons y ys ih =>
    obtain ⟨qy, hqy⟩ := hl y (by simp)
    have hjy : jlt (scoreKey x) (scoreKey y) = .ok (decide (qx < qy)) := by
      rw [hx, hqy]; rfl
    have hrx : ratKey x = qx := by simp [ratKey, hx, ratOfNum]
    have hry : ratKey y = qy := by simp [ratKey, hqy, ratOfNum]
    rw [insertDescE]
    simp only [hjy]
    by_cases hlt : qx < qy
    · rw [if_pos (by simp [hlt]), ih (fun z hz => hl z (by simp [hz]))]
      rw [insertDescP, if_pos (by rw [hrx, hry]; exact hlt)]
    · rw [if_neg (by simp [hlt]), insertDescP, if_neg (by rw [hrx, hry]; exact hlt)]

lemma insertDescP_perm (x : JVal) (l : List JVal) :
    (insertDescP x l).Perm (x :: l) := by
  induction l with
  | nil => exact List.Perm.refl _
  | cons y ys ih =>
    by_cases hlt : ratKey x < ratKey y
    · rw [insertDescP, if_pos hlt]
      exact (ih.cons y).trans (List.Perm.swap x y ys)
    · rw [insertDescP, if_neg hlt]

lemma sortDescP_perm (l : List JVal) : (sortDescP l).Perm l := by
  induction l with
  | nil => exact List.Perm.refl _
  | cons x xs ih => exact (insertDescP_perm x (sortDescP xs)).trans (ih.cons x)

lemma sortDescE_of_num (l : List JVal)
    (hl : ∀ y ∈ l, ∃ qy : Rat, scoreKey y = .num qy) :
    pySortedDesc l = .ok (sortDescP l) := by
  induction l with
  | nil => rfl
  | cons x xs ih =>
    obtain ⟨qx, hqx⟩ := hl x (by simp)
    have hxs : ∀ y ∈ xs, ∃ qy : Rat, scoreKey y = .num qy :=
      fun y hy => hl y (by simp [hy])
    rw [pySortedDesc, ih hxs]
    exact insertDescE_of_num x (sortDescP xs) qx hqx
      (fun y hy => hxs y ((sortDescP_perm xs).mem_iff.mp hy))

/-! ### Lemmas about the regex span extraction -/

lemma dropWhile_append_all {p : Char → Bool} (l1 l2 : List Char)
    (h : ∀ c ∈ l1, p c = true) :
    List.dropWhile p (l1 ++ l2) = List.dropWhile p l2 := by
  induction l1 with
  | nil => rfl
  | cons c cs ih =>
    simp only [List.cons_append, List.dropWhile_cons, h c (by simp)]
    exact ih (fun c2 hc2 => h c2 (by simp [hc2]))

lemma dropWhile_cons_false {p : Char → Bool} (c : Char) (l : List Char)
    (h : p c = false) : List.dropWhile p (c :: l) = c :: l := by
  simp [List.dropWhile_cons, h]

lemma dropWhile_head {p : Char → Bool} (l : List Char) (x : Char) (xs : List Char)
    (h : List.dropWhile p l = x :: xs) : p x = false := by
  induction l with
  | nil => simp at h
  | cons c cs ih =>
    rw [List.dropWhile_cons] at h
    by_cases hp : p c = true
    · rw [if_pos hp] at h; exact ih h
    · rw [if_neg hp] at h
      injection h with h1 h2
      subst h1
      exact Bool.eq_false_iff.mpr hp

lemma spanBetween_commentary (openC closeC : Char) (pre mid post : List Char)
    (hpre : ∀ c ∈ pre, c ≠ openC) (hpost : ∀ c ∈ post, c ≠ closeC) :
    spanBetween openC closeC (pre ++ (openC :: mid ++ [closeC]) ++ post) =
      some (openC :: mid ++ [closeC]) := by
  have h1 : List.dropWhile (fun c => !(c = openC)) (pre ++ (openC :: mid ++ [closeC]) ++ post) =
      openC :: (mid ++ [closeC] ++ post) := by
    rw [List.append_assoc,
       dropWhile_append_all pre _ (fun c hc => by simp [hpre c hc])]
    simp [List.dropWhile_cons]
  have h2 : (openC :: (mid ++ [closeC] ++ post)).reverse =
      post.reverse ++ (closeC :: (mid.reverse ++ [openC])) := by
    simp
  have h3 : List.dropWhile (fun c => !(c = closeC))
      (post.reverse ++ (closeC :: (mid.reverse ++ [openC]))) =
      closeC :: (mid.reverse ++ [openC]) := by
    rw [dropWhile_append_all post.reverse _ (fun c hc => by
          simp [hpost c (by simpa using hc)])]
    simp [List.dropWhile_cons]
  unfold spanBetween
  rw [h1, h2, h3]
  simp

lemma spanBetween_head (openC closeC : Char) (cs u : List Char)
    (h : spanBetween openC closeC cs = some u) : ∃ rest, u = openC :: rest := by
  unfold spanBetween at h
  by_cases hemp : ((cs.dropWhile (fun c => !(c = openC))).reverse.dropWhile
      (fun c => !(c = closeC))).reverse.isEmpty
  · rw [if_pos hemp] at h
    exact absurd h (by simp)
  · rw [if_neg hemp] at h
    injection h with h
    subst h
    set t := cs.dropWhile (fun c => !(c = openC)) with ht
    have hsuf : t.reverse.dropWhile (fun c => !(c = closeC)) <:+ t.reverse :=
      List.dropWhile_suffix _
    have hpre2 : (t.reverse.dropWhile (fun c => !(c = closeC))).reverse <+: t := by
      have := hsuf.reverse
      simpa using this
    obtain ⟨s, hs⟩ := hpre2
    cases hu2 : (t.reverse.dropWhile (fun c => !(c = closeC))).reverse with
    | nil => rw [hu2] at hemp; simp at hemp
    | cons x xs =>
      refine ⟨xs, ?_⟩
      rw [hu2] at hs
      have hthead : t = x :: (xs ++ s) := by rw [← hs]; simp
      have hdw : List.dropWhile (fun c => !(c = openC)) cs = x :: (xs ++ s) := by
        rw [← ht, hthead]
      have hx := dropWhile_head cs x (xs ++ s) hdw
      simp at hx
      rw [hx]

/-! ### Characterisation of per-item units -/

lemma parseElems_arr (fuel : Nat) :
    ∀ (acc : List JVal) (cs : List Char) (first : Bool) (v : JVal) (out : List Char),
      parseElems fuel acc cs first = .ok (v, out) → ∃ xs, v = .arr xs := by
  induction fuel with
  | zero => intro acc cs first v out h; rw [parseElems] at h; exact absurd h (by simp)
  | succ fuel ih =>
    intro acc cs first v out h
    rw [parseElems] at h
    split at h
    · exact absurd h (by simp)
    · split at h
      · simp only [Except.ok.injEq, Prod.mk.injEq] at h
        exact ⟨_, h.1.symm⟩
      · split at h
        · exact absurd h (by simp)
        · split at h
          · split at h
            · exact ih _ _ _ _ _ h
            · split at h
              · simp only [Except.ok.injEq, Prod.mk.injEq] at h
                exact ⟨_, h.1.symm⟩
              · exact absurd h (by simp)
          · exact absurd h (by simp)

lemma parseValue_lbrack (fuel : Nat) (rest : List Char) (v : JVal) (out : List Char)
    (h : parseValue fuel (lbrackC :: rest) = .ok (v, out)) : ∃ xs, v = .arr xs := by
  cases fuel with
  | zero => rw [parseValue] at h; exact absurd h (by simp)
  | succ fuel =>
    have hstep : parseValue (fuel + 1) (lbrackC :: rest) = parseElems fuel [] rest true := rfl
    rw [hstep] at h
    exact parseElems_arr fuel [] rest true v out h

lemma bracketSpan_head (s sp : String) (h : bracketSpan s = some sp) :
    ∃ rest, sp.toList = lbrackC :: rest := by
  unfold bracketSpan at h
  cases hsb : spanBetween lbrackC rbrackC s.toList with
  | none => rw [hsb] at h; exact absurd h (by simp)
  | some u =>
    rw [hsb] at h
    simp at h
    obtain ⟨rest, hu⟩ := spanBetween_head _ _ _ _ hsb
    exact ⟨rest, by rw [← h, hu]; rfl⟩

lemma jsonLoads_of_bracketSpan (s sp : String) (v : JVal) (hb : bracketSpan s = some sp)
    (h : jsonLoads sp = .ok v) : ∃ xs, v = .arr xs := by
  obtain ⟨rest, hsp⟩ := bracketSpan_head s sp hb
  unfold jsonLoads at h
  rw [hsp] at h
  split at h
  · exact absurd h (by simp)
  · next v2 rest2 heq =>
      split at h
      · simp only [Except.ok.injEq] at h
        subst h
        exact parseValue_lbrack _ _ _ _ heq
      · exact absurd h (by simp)

/-- Full characterisation of one question-generation unit: an
error-state evaluation is returned untouched with no call; otherwise
(when the unit returns at all) exactly one call is attempted and the
result always carries `interview_questions` bound to an array. -/
lemma genOne_cases (llm : LLM) (ja ev ev2 : JVal) (n : Nat)
    (h : genOne llm ja ev = .ok (ev2, n)) :
    (ev.hasKey ("error") = true ∧ ev2 = ev ∧ n = 0) ∨
    (ev.hasKey ("error") = false ∧ n = 1 ∧ ∃ qs : List JVal,
      ev2.get ("interview_questions") .null = .arr qs ∧
      ev2.hasKey ("interview_questions") = true) := by
  unfold genOne at h
  by_cases hke : ev.hasKey ("error") = true
  · rw [if_pos hke] at h
    simp only [Except.ok.injEq, Prod.mk.injEq] at h
    exact Or.inl ⟨hke, h.1.symm, h.2.symm⟩
  · rw [if_neg hke] at h
    refine Or.inr ⟨by simpa using hke, ?_⟩
    split at h
    · exact absurd h (by simp)
    · split at h
      · exact absurd h (by simp)
      · next evv hgc =>
          simp only [Except.ok.injEq, Prod.mk.injEq] at h
          obtain ⟨h1, h2⟩ := h
          subst h1
          refine ⟨h2.symm, ?_⟩
          unfold genCatch at hgc
          split at hgc
          · next evw htb =>
              simp only [Except.ok.injEq] at hgc
              subst hgc
              unfold genTryBody at htb
              split at htb
              · exact absurd htb (by simp)
              · next reply hr =>
                  unfold genRespond at htb
                  split at htb
                  · next sp hbs =>
                      split at htb
                      · exact absurd htb (by simp)
                      · next qs hl =>
                          obtain ⟨xs, hxs⟩ := jsonLoads_of_bracketSpan reply sp qs hbs hl
                          subst hxs
                          exact ⟨xs, setItem_get _ _ _ _ _ htb, setItem_hasKey _ _ _ _ htb⟩
                  · exact ⟨[], setItem_get _ _ _ _ _ htb, setItem_hasKey _ _ _ _ htb⟩
          · next e htb =>
              exact ⟨_, setItem_get _ _ _ _ _ hgc, setItem_hasKey _ _ _ _ hgc⟩

/-- An oracle whose every successful reply contains a brace span. -/
def SpanTotal (llm : LLM) : Prop :=
  ∀ p s r, llm p s = .ok r → (braceSpan r).isSome = true

lemma parseOne_some (llm : LLM) (u : UploadedResume) (o : Option JVal) (n : Nat)
    (hst : SpanTotal llm) (h : parseOne llm u = .ok (o, n)) : o.isSome = true := by
  unfold parseOne at h
  cases hx : extractTextStep u with
  | error e => rw [hx] at h; exact absurd h (by simp)
  | ok text =>
    rw [hx] at h
    have ho : parseCatch u.filename text (parseTryBody llm text u.filename) = o := by
      have := h
      simp only [Except.ok.injEq, Prod.mk.injEq] at this
      exact this.1
    rw [← ho]
    cases hr : llm (parsePrompt text) parseSystemPrompt with
    | error e => simp [parseTryBody, hr, parseCatch]
    | ok reply =>
      have hsp := hst _ _ _ hr
      cases hb : braceSpan reply with
      | none => rw [hb] at hsp; simp at hsp
      | some sp =>
        simp only [parseTryBody, hr, parseRespond, hb]
        cases hl : jsonLoads sp with
        | error e => simp [parseCatch, hl]
        | ok pd =>
          cases hs1 : pd.setItem ("filename") (.str u.filename) with
          | error e => simp [parseCatch, hl, hs1]
          | ok pd2 =>
            cases hs2 : pd2.setItem ("raw_text") (.str (pyTake text 2000)) with
            | error e => simp [parseCatch, hl, hs1, hs2]
            | ok pd3 => simp [parseCatch, hl, hs1, hs2]

lemma parseLoop_length_le (llm : LLM) (ups : List UploadedResume) (rs : List JVal) (n : Nat)
    (h : parseLoop llm ups = .ok (rs, n)) : rs.length ≤ ups.length := by
  induction ups generalizing rs n with
  | nil =>
    simp only [parseLoop, Except.ok.injEq, Prod.mk.injEq] at h
    simp [← h.1]
  | cons u us ih =>
    simp only [parseLoop] at h
    cases hp : parseOne llm u with
    | error e => rw [hp] at h; exact absurd h (by simp)
    | ok pr =>
      obtain ⟨o, n1⟩ := pr
      rw [hp] at h
      cases hl : parseLoop llm us with
      | error e => rw [hl] at h; exact absurd h (by simp)
      | ok rm =>
        obtain ⟨rest, m⟩ := rm
        rw [hl] at h
        cases o with
        | some v =>
          simp only [Except.ok.injEq, Prod.mk.injEq] at h
          rw [← h.1]
          simpa using Nat.succ_le_succ (ih rest m hl)
        | none =>
          simp only [Except.ok.injEq, Prod.mk.injEq] at h
          rw [← h.1]
          exact le_trans (ih rest m hl) (Nat.le_succ _)

lemma parseLoop_length_eq (llm : LLM) (hst : SpanTotal llm)
    (ups : List UploadedResume) (rs : List JVal) (n : Nat)
    (h : parseLoop llm ups = .ok (rs, n)) : rs.length = ups.length := by
  induction ups generalizing rs n with
  | nil =>
    simp only [parseLoop, Except.ok.injEq, Prod.mk.injEq] at h
    simp [← h.1]
  | cons u us ih =>
    simp only [parseLoop] at h
    cases hp : parseOne llm u with
    | error e => rw [hp] at h; exact absurd h (by simp)
    | ok pr =>
      obtain ⟨o, n1⟩ := pr
      rw [hp] at h
      cases hl : parseLoop llm us with
      | error e => rw [hl] at h; exact absurd h (by simp)
      | ok rm =>
        obtain ⟨rest, m⟩ := rm
        rw [hl] at h
        cases o with
        | some v =>
          simp only [Except.ok.injEq, Prod.mk.injEq] at h
          rw [← h.1]
          simpa using ih rest m hl
        | none =>
          have := parseOne_some llm u none n1 hst hp
          simp at this

/-! ### Characterisation of the evaluation unit and the stage loops -/

/-- Full characterisation of one evaluation unit: a résumé in error
state is forwarded (filename and error only, no model call); otherwise
one call is attempted and the unit either drops the item (`none`, only
when the reply has no brace span) or yields a record carrying
`filename`. -/
lemma evalOne_cases (llm : LLM) (ja r : JVal) (o : Option JVal) (n : Nat)
    (h : evalOne llm ja r = .ok (o, n)) :
    (r.hasKey ("error") = true ∧ n = 0 ∧ ∃ fn er, r.getItem ("filename") = .ok fn ∧
       r.getItem ("error") = .ok er ∧ o = some (.obj [("filename", fn), ("error", er)])) ∨
    (r.hasKey ("error") = false ∧ n = 1 ∧
       ((o = none ∧ ∃ pv reply, evalPrompt ja r = .ok pv ∧
           llm pv evalSystemPrompt = .ok reply ∧ braceSpan reply = none) ∨
        ∃ e, o = some e ∧ e.hasKey ("filename") = true)) := by
  unfold evalOne at h
  by_cases hke : r.hasKey ("error") = true
  · rw [if_pos hke] at h
    split at h
    · exact absurd h (by simp)
    · next fn hfn =>
        split at h
        · exact absurd h (by simp)
        · next er her =>
            simp only [Except.ok.injEq, Prod.mk.injEq] at h
            exact Or.inl ⟨hke, h.2.symm, fn, er, hfn, her, h.1.symm⟩
  · rw [if_neg hke] at h
    refine Or.inr ⟨by simpa using hke, ?_⟩
    split at h
    · exact absurd h (by simp)
    · next pv hpv =>
        split at h
        · exact absurd h (by simp)
        · next o2 hcat =>
            simp only [Except.ok.injEq, Prod.mk.injEq] at h
            obtain ⟨h1, h2⟩ := h
            subst h1
            refine ⟨h2.symm, ?_⟩
            unfold evalCatch at hcat
            split at hcat
            · next o3 htb =>
                simp only [Except.ok.injEq] at hcat
                subst hcat
                unfold evalTryBody at htb
                split at htb
                · exact absurd htb (by simp)
                · next reply hr =>
                    unfold evalRespond at htb
                    split at htb
                    · next hbs =>
                        simp only [Except.ok.injEq] at htb
                        exact Or.inl ⟨htb.symm, pv, reply, hpv, hr, hbs⟩
                    · next sp hbs =>
                        split at htb
                        · exact absurd htb (by simp)
                        · next ev hl =>
                            split at htb
                            · exact absurd htb (by simp)
                            · next fn hfn =>
                                split at htb
                                · exact absurd htb (by simp)
                                · next ev2 hsi =>
                                    simp only [Except.ok.injEq] at htb
                                    exact Or.inr ⟨ev2, htb.symm,
                                      setItem_hasKey _ _ _ _ hsi⟩
            · next e htb =>
                split at hcat
                · exact absurd hcat (by simp)
                · next erec hh =>
                    simp only [Except.ok.injEq] at hcat
                    subst hcat
                    unfold evalExceptHandler at hh
                    split at hh
                    · exact absurd hh (by simp)
                    · next fn hfn =>
                        simp only [Except.ok.injEq] at hh
                        refine Or.inr ⟨erec, rfl, ?_⟩
                        rw [← hh]
                        simp [JVal.hasKey, lookupField]

lemma evalOne_some (llm : LLM) (ja r : JVal) (o : Option JVal) (n : Nat)
    (hst : SpanTotal llm) (h : evalOne llm ja r = .ok (o, n)) : o.isSome = true := by
  rcases evalOne_cases llm ja r o n h with ⟨_, _, fn, er, _, _, ho⟩ | ⟨_, _, hcase⟩
  · rw [ho]; rfl
  · rcases hcase with ⟨hnone, pv, reply, _, hr, hbs⟩ | ⟨e, ho, _⟩
    · have := hst _ _ _ hr
      rw [hbs] at this
      simp at this
    · rw [ho]; rfl

lemma evalLoop_length_le (llm : LLM) (ja : JVal) (rs evs : List JVal) (n : Nat)
    (h : evalLoop llm ja rs = .ok (evs, n)) : evs.length ≤ rs.length := by
  induction rs generalizing evs n with
  | nil =>
    simp only [evalLoop, Except.ok.injEq, Prod.mk.injEq] at h
    simp [← h.1]
  | cons r rest ih =>
    simp only [evalLoop] at h
    cases hp : evalOne llm ja r with
    | error e => rw [hp] at h; exact absurd h (by simp)
    | ok pr =>
      obtain ⟨o, n1⟩ := pr
      rw [hp] at h
      cases hl : evalLoop llm ja rest with
      | error e => rw [hl] at h; exact absurd h (by simp)
      | ok rm =>
        obtain ⟨tl, m⟩ := rm
        rw [hl] at h
        cases o with
        | some v =>
          simp only [Except.ok.injEq, Prod.mk.injEq] at h
          rw [← h.1]
          simpa using Nat.succ_le_succ (ih tl m hl)
        | none =>
          simp only [Except.ok.injEq, Prod.mk.injEq] at h
          rw [← h.1]
          exact le_trans (ih tl m hl) (Nat.le_succ _)

lemma evalLoop_length_eq (llm : LLM) (hst : SpanTotal llm) (ja : JVal)
    (rs evs : List JVal) (n : Nat)
    (h : evalLoop llm ja rs = .ok (evs, n)) : evs.length = rs.length := by
  induction rs generalizing evs n with
  | nil =>
    simp only [evalLoop, Except.ok.injEq, Prod.mk.injEq] at h
    simp [← h.1]
  | cons r rest ih =>
    simp only [evalLoop] at h
    cases hp : evalOne llm ja r with
    | error e => rw [hp] at h; exact absurd h (by simp)
    | ok pr =>
      obtain ⟨o, n1⟩ := pr
      rw [hp] at h
      cases hl : evalLoop llm ja rest with
      | error e => rw [hl] at h; exact absurd h (by simp)
      | ok rm =>
        obtain ⟨tl, m⟩ := rm
        rw [hl] at h
        cases o with
        | some v =>
          simp only [Except.ok.injEq, Prod.mk.injEq] at h
          rw [← h.1]
          simpa using ih tl m hl
        | none =>
          have := evalOne_some llm ja r none n1 hst hp
          simp at this

lemma evalLoop_mem (llm : LLM) (ja : JVal) (rs evs : List JVal) (n : Nat)
    (h : evalLoop llm ja rs = .ok (evs, n)) :
    ∀ e ∈ evs, ∃ r ∈ rs, ∃ m, evalOne llm ja r = .ok (some e, m) := by
  induction rs generalizing evs n with
  | nil =>
    simp only [evalLoop, Except.ok.injEq, Prod.mk.injEq] at h
    rw [← h.1]
    simp
  | cons r rest ih =>
    simp only [evalLoop] at h
    cases hp : evalOne llm ja r with
    | error e => rw [hp] at h; exact absurd h (by simp)
    | ok pr =>
      obtain ⟨o, n1⟩ := pr
      rw [hp] at h
      cases hl : evalLoop llm ja rest with
      | error e => rw [hl] at h; exact absurd h (by simp)
      | ok rm =>
        obtain ⟨tl, m⟩ := rm
        rw [hl] at h
        cases o with
        | some v =>
          simp only [Except.ok.injEq, Prod.mk.injEq] at h
          rw [← h.1]
          intro e he
          rcases List.mem_cons.mp he with he1 | he2
          · exact ⟨r, by simp, n1, by rw [hp, he1]⟩
          · obtain ⟨r2, hr2, m2, hm2⟩ := ih tl m hl e he2
            exact ⟨r2, by simp [hr2], m2, hm2⟩
        | none =>
          simp only [Except.ok.injEq, Prod.mk.injEq] at h
          rw [← h.1]
          intro e he
          obtain ⟨r2, hr2, m2, hm2⟩ := ih tl m hl e he
          exact ⟨r2, by simp [hr2], m2, hm2⟩

lemma evalLoop_calls (llm : LLM) (ja : JVal) (rs evs : List JVal) (n : Nat)
    (h : evalLoop llm ja rs = .ok (evs, n)) :
    n = (rs.filter (fun r => !(r.hasKey ("error")))).length := by
  induction rs generalizing evs n with
  | nil =>
    simp only [evalLoop, Except.ok.injEq, Prod.mk.injEq] at h
    simp [← h.2]
  | cons r rest ih =>
    simp only [evalLoop] at h
    cases hp : evalOne llm ja r with
    | error e => rw [hp] at h; exact absurd h (by simp)
    | ok pr =>
      obtain ⟨o, n1⟩ := pr
      rw [hp] at h
      cases hl : evalLoop llm ja rest with
      | error e => rw [hl] at h; exact absurd h (by simp)
      | ok rm =>
        obtain ⟨tl, m⟩ := rm
        rw [hl] at h
        have hn1 : n1 = (if r.hasKey ("error") then 0 else 1) := by
          rcases evalOne_cases llm ja r o n1 hp with ⟨hk, hn, _⟩ | ⟨hk, hn, _⟩
          · simp [hk, hn]
          · simp [hk, hn]
        have hcount : (List.filter (fun r => !(r.hasKey ("error"))) (r :: rest)).length =
            (if r.hasKey ("error") then 0 else 1) +
              (List.filter (fun r => !(r.hasKey ("error"))) rest).length := by
          by_cases hk : r.hasKey ("error") = true
          · simp [List.filter_cons, hk]
          · simp only [Bool.not_eq_true] at hk
            simp [List.filter_cons, hk]
            omega
        have hm := ih tl m hl
        cases o with
        | some v =>
          simp only [Except.ok.injEq, Prod.mk.injEq] at h
          rw [← h.2, hcount, hn1, hm]
        | none =>
          simp only [Except.ok.injEq, Prod.mk.injEq] at h
          rw [← h.2, hcount, hn1, hm]

lemma genLoop_length (llm : LLM) (ja : JVal) (evs evs2 : List JVal) (n : Nat)
    (h : genLoop llm ja evs = .ok (evs2, n)) : evs2.length = evs.length := by
  induction evs generalizing evs2 n with
  | nil =>
    simp only [genLoop, Except.ok.injEq, Prod.mk.injEq] at h
    simp [← h.1]
  | cons ev rest ih =>
    simp only [genLoop] at h
    cases hp : genOne llm ja ev with
    | error e => rw [hp] at h; exact absurd h (by simp)
    | ok pr =>
      obtain ⟨ev2, n1⟩ := pr
      rw [hp] at h
      cases hl : genLoop llm ja rest with
      | error e => rw [hl] at h; exact absurd h (by simp)
      | ok rm =>
        obtain ⟨tl, m⟩ := rm
        rw [hl] at h
        simp only [Except.ok.injEq, Prod.mk.injEq] at h
        rw [← h.1]
        simpa using ih tl m hl

lemma genLoop_mem (llm : LLM) (ja : JVal) (evs evs2 : List JVal) (n : Nat)
    (h : genLoop llm ja evs = .ok (evs2, n)) :
    ∀ e ∈ evs2, ∃ ev ∈ evs, ∃ m, genOne llm ja ev = .ok (e, m) := by
  induction evs generalizing evs2 n with
  | nil =>
    simp only [genLoop, Except.ok.injEq, Prod.mk.injEq] at h
    rw [← h.1]
    simp
  | cons ev rest ih =>
    simp only [genLoop] at h
    cases hp : genOne llm ja ev with
    | error e => rw [hp] at h; exact absurd h (by simp)
    | ok pr =>
      obtain ⟨ev2, n1⟩ := pr
      rw [hp] at h
      cases hl : genLoop llm ja rest with
      | error e => rw [hl] at h; exact absurd h (by simp)
      | ok rm =>
        obtain ⟨tl, m⟩ := rm
        rw [hl] at h
        simp only [Except.ok.injEq, Prod.mk.injEq] at h
        rw [← h.1]
        intro e he
        rcases List.mem_cons.mp he with he1 | he2
        · exact ⟨ev, by simp, n1, by rw [hp, he1]⟩
        · obtain ⟨ev3, hev3, m2, hm2⟩ := ih tl m hl e he2
          exact ⟨ev3, by simp [hev3], m2, hm2⟩

/-! ### Inversion of the stage wrappers and of a full run -/

lemma parse_resumes_elim (llm : LLM) (jd : String) (ups : List UploadedResume)
    (st1 : WState) (n1 : Nat) (h : parse_resumes llm jd ups = .ok (st1, n1)) :
    parseLoop llm ups = .ok (st1.resumes, n1) ∧ st1.job_description = jd ∧
      st1.job_analysis = .obj [] ∧ st1.candidate_evaluations = [] := by
  unfold parse_resumes at h
  split at h
  · exact absurd h (by simp)
  · next parsed n heq =>
      simp only [Except.ok.injEq, Prod.mk.injEq] at h
      obtain ⟨h1, h2⟩ := h
      subst h2
      rw [← h1]
      exact ⟨heq, rfl, rfl, rfl⟩

lemma analyze_job_frame (llm : LLM) (st : WState) :
    (analyze_job llm st).1.resumes = st.resumes ∧
    (analyze_job llm st).1.job_description = st.job_description ∧
    (analyze_job llm st).1.candidate_evaluations = st.candidate_evaluations ∧
    (analyze_job llm st).2 = 1 := by
  unfold analyze_job
  split <;> simp

lemma analyze_job_outcome (llm : LLM) (st : WState) :
    (∃ reply sp ja, llm (analyzePrompt st.job_description) analyzeSystemPrompt = .ok reply ∧
       braceSpan reply = some sp ∧ jsonLoads sp = .ok ja ∧
       (analyze_job llm st).1.job_analysis = ja) ∨
    ((analyze_job llm st).1.job_analysis = st.job_analysis) ∨
    (∃ e, (analyze_job llm st).1.job_analysis = .obj [("error", .str e)]) := by
  unfold analyze_job
  cases htb : analyzeTryBody llm (analyzePrompt st.job_description) with
  | error e => right; right; exact ⟨e, by simp⟩
  | ok o =>
    cases o with
    | none => right; left; simp
    | some ja =>
      left
      unfold analyzeTryBody at htb
      split at htb
      · exact absurd htb (by simp)
      · next reply hr =>
          unfold analyzeRespond at htb
          split at htb
          · exact absurd htb (by simp)
          · next sp hbs =>
              split at htb
              · exact absurd htb (by simp)
              · next ja2 hl =>
                  simp only [Except.ok.injEq, Option.some.injEq] at htb
                  subst htb
                  exact ⟨reply, sp, ja2, hr, hbs, hl, by simp⟩

lemma evaluate_candidates_elim (llm : LLM) (st st3 : WState) (n3 : Nat)
    (h : evaluate_candidates llm st = .ok (st3, n3)) :
    evalLoop llm st.job_analysis st.resumes = .ok (st3.candidate_evaluations, n3) ∧
      st3.resumes = st.resumes ∧ st3.job_description = st.job_description ∧
      st3.job_analysis = st.job_analysis := by
  unfold evaluate_candidates at h
  split at h
  · exact absurd h (by simp)
  · next evs n heq =>
      simp only [Except.ok.injEq, Prod.mk.injEq] at h
      obtain ⟨h1, h2⟩ := h
      subst h2
      rw [← h1]
      exact ⟨heq, rfl, rfl, rfl⟩

lemma generate_questions_elim (llm : LLM) (st st4 : WState) (n4 : Nat)
    (h : generate_questions llm st = .ok (st4, n4)) :
    genLoop llm st.job_analysis st.candidate_evaluations = .ok (st4.candidate_evaluations, n4) ∧
      st4.resumes = st.resumes ∧ st4.job_description = st.job_description ∧
      st4.job_analysis = st.job_analysis := by
  unfold generate_questions at h
  split at h
  · exact absurd h (by simp)
  · next evs n heq =>
      simp only [Except.ok.injEq, Prod.mk.injEq] at h
      obtain ⟨h1, h2⟩ := h
      subst h2
      rw [← h1]
      exact ⟨heq, rfl, rfl, rfl⟩

/-- Decomposition of a successful end-to-end run into its stages. -/
lemma process_elim (llm : LLM) (jd : String) (ups : List UploadedResume)
    (res : PResult) (n : Nat) (h : process llm jd ups = .ok (res, n)) :
    ∃ st1 n1 st3 n3 st4 n4,
      parse_resumes llm jd ups = .ok (st1, n1) ∧
      evaluate_candidates llm (analyze_job llm st1).1 = .ok (st3, n3) ∧
      generate_questions llm st3 = .ok (st4, n4) ∧
      pySortedDesc st4.candidate_evaluations = .ok res.candidates ∧
      res.job_analysis = st4.job_analysis := by
  unfold process at h
  split at h
  · exact absurd h (by simp)
  · next st1 n1 hparse =>
      split at h
      next st2 n2 hana =>
        split at h
        · exact absurd h (by simp)
        · next st3 n3 heval =>
            split at h
            · exact absurd h (by simp)
            · next st4 n4 hgen =>
                split at h
                · exact absurd h (by simp)
                · next cands hsort =>
                    simp only [Except.ok.injEq, Prod.mk.injEq] at h
                    obtain ⟨h1, h2⟩ := h
                    refine ⟨st1, n1, st3, n3, st4, n4, hparse, ?_, hgen, ?_, ?_⟩
                    · rw [hana]
                      exact heval
                    · rw [← h1]
                      exact hsort
                    · rw [← h1]

/-! ### Concrete inputs, replies and oracles used to settle the claims -/

def upA10 : UploadedResume :=
  { filename := "a", content := { pdfExtract := "", utf8Decode := .ok "A" }, content_type := "t" }

def upB10 : UploadedResume :=
  { filename := "b", content := { pdfExtract := "", utf8Decode := .ok "BB" }, content_type := "t" }

/-- An upload whose bytes do not decode as utf-8. -/
def upBad : UploadedResume :=
  { filename := "c",
    content := { pdfExtract := "", utf8Decode := .error ("UnicodeDecodeError: invalid start byte") },
    content_type := "t" }

def resumeJsonA : String := "\x7b\"name\":\"Al\"\x7d"
def badSpanReply : String := "\x7bx\x7d"
def noSpanReply : String := "no json here"
def evalJsonStrScore : String := "\x7b\"score\":\"90\"\x7d"
def evalJsonNum : String := "\x7b\"score\":87\x7d"
def jaEmptyReply : String := "\x7b\x7d"
def noBracketsReply : String := "none"

def rA10 : JVal := .obj [("name", .str "Al"), ("filename", .str "a"), ("raw_text", .str "A")]
def errB10 : JVal := parseErrRecord ("b") ("Expecting property name") ("BB")
def evA10 : JVal := .obj [("score", .str "90"), ("filename", .str "a")]
def fwdB10 : JVal := .obj [("filename", .str "b"), ("error", .str "Expecting property name")]
def evA10q : JVal := .obj [("score", .str "90"), ("filename", .str "a"), ("interview_questions", .arr [])]
def evA87 : JVal := .obj [("score", jnum 87), ("filename", .str "a")]
def evA87q : JVal := .obj [("score", jnum 87), ("filename", .str "a"), ("interview_questions", .arr [])]

/-- Oracle whose every reply contains no JSON span at all. -/
def noJsonLLM : LLM := fun _ _ => .ok noSpanReply

/-- Oracle whose every reply is the JSON text of an empty object. -/
def allBracesLLM : LLM := fun _ _ => .ok jaEmptyReply

/-- Oracle whose every call raises. -/
def raiseLLM : LLM := fun _ _ => .error ("ExternalServiceError: boom")

/-- Oracle whose every reply has a brace span that fails to parse. -/
def badSpanLLM : LLM := fun _ _ => .ok badSpanReply

lemma neAG : ¬(analyzeSystemPrompt = genqSystemPrompt) := by decide
lemma neEG : ¬(evalSystemPrompt = genqSystemPrompt) := by decide
lemma neEA : ¬(evalSystemPrompt = analyzeSystemPrompt) := by decide
lemma nePG : ¬(parseSystemPrompt = genqSystemPrompt) := by decide
lemma nePA : ¬(parseSystemPrompt = analyzeSystemPrompt) := by decide
lemma nePE : ¬(parseSystemPrompt = evalSystemPrompt) := by decide

lemma parsePrompt_text_inj (a b : String) (h : parsePrompt a = parsePrompt b) :
    (pyTake a 4000).data = (pyTake b 4000).data := by
  have hd := congrArg String.data h
  unfold parsePrompt at hd
  rw [String.data_append, String.data_append, String.data_append, String.data_append] at hd
  rw [List.append_assoc, List.append_assoc] at hd
  exact List.append_cancel_right (List.append_cancel_left hd)

lemma neqAB : ¬(parsePrompt ("A") = parsePrompt ("BB")) := by
  intro h
  exact absurd (parsePrompt_text_inj ("A") ("BB") h) (by decide)

/-- Witness oracle for the mixed-score-type run: résumé A parses to a
record whose evaluation reply carries the string score, résumé B's
parse reply has a brace span that is not valid JSON. -/
def wLLM10 : LLM := fun p s =>
  if s = genqSystemPrompt then .ok noBracketsReply
  else if s = analyzeSystemPrompt then .ok jaEmptyReply
  else if s = evalSystemPrompt then .ok evalJsonStrScore
  else if p = parsePrompt ("BB") then .ok badSpanReply
  else .ok resumeJsonA

lemma w10_parseA : wLLM10 (parsePrompt ("A")) parseSystemPrompt = .ok resumeJsonA := by
  unfold wLLM10
  rw [if_neg nePG, if_neg nePA, if_neg nePE, if_neg neqAB]

lemma w10_parseB : wLLM10 (parsePrompt ("BB")) parseSystemPrompt = .ok badSpanReply := by
  unfold wLLM10
  rw [if_neg nePG, if_neg nePA, if_neg nePE, if_pos rfl]

lemma w10_ana : ∀ p, wLLM10 p analyzeSystemPrompt = .ok jaEmptyReply := fun p => by
  unfold wLLM10
  rw [if_neg neAG, if_pos rfl]

lemma w10_eval : ∀ p, wLLM10 p evalSystemPrompt = .ok evalJsonStrScore := fun p => by
  unfold wLLM10
  rw [if_neg neEG, if_neg neEA, if_pos rfl]

lemma w10_genq : ∀ p, wLLM10 p genqSystemPrompt = .ok noBracketsReply := fun p => by
  unfold wLLM10
  rw [if_pos rfl]

/-- Claim C10: the final ranking compares the extracted score values with
the language ordering and without validation; when one evaluation's
score is the string "90" (résumé A's reply) and another's effective
score is the number 0 (résumé B's forwarded error variant, whose
missing score defaults to 0), the sort raises a `TypeError` that
escapes the top-level run. -/
theorem C10_sort_type_error (llm : LLM)
    (h1 : llm (parsePrompt ("A")) parseSystemPrompt = .ok resumeJsonA)
    (h2 : llm (parsePrompt ("BB")) parseSystemPrompt = .ok badSpanReply)
    (h3 : ∀ p, llm p analyzeSystemPrompt = .ok jaEmptyReply)
    (h4 : ∀ p, llm p evalSystemPrompt = .ok evalJsonStrScore)
    (h5 : ∀ p, llm p genqSystemPrompt = .ok noBracketsReply) :
    scoreKey evA10q = .str ("90") ∧ scoreKey fwdB10 = .num 0 ∧
    pySortedDesc [evA10q, fwdB10] =
      .error ("TypeError: comparison not supported between instances of these types") ∧
    process llm ("jd") [upA10, upB10] =
      .error ("TypeError: comparison not supported between instances of these types") := by
  refine ⟨rfl, rfl, rfl, ?_⟩
  have e1 : parseOne llm upA10 = .ok (some rA10, 1) := by
    rw [parseOne_text llm upA10 ("A") rfl, parseTryBody_reply llm ("A") upA10.filename resumeJsonA h1]
    exact rfl
  have e2 : parseOne llm upB10 = .ok (some errB10, 1) := by
    rw [parseOne_text llm upB10 ("BB") rfl, parseTryBody_reply llm ("BB") upB10.filename badSpanReply h2]
    exact rfl
  have hparse : parse_resumes llm ("jd") [upA10, upB10] =
      .ok ({ job_description := "jd", resumes := [rA10, errB10], job_analysis := .obj [],
             candidate_evaluations := [] }, 2) := by
    unfold parse_resumes
    simp only [parseLoop, e1, e2]
  have hana : analyze_job llm
      { job_description := "jd", resumes := [rA10, errB10], job_analysis := .obj [],
        candidate_evaluations := [] } =
      ({ job_description := "jd", resumes := [rA10, errB10], job_analysis := .obj [],
         candidate_evaluations := [] }, 1) := by
    rw [analyze_job_reply llm _ jaEmptyReply (h3 _)]
    exact rfl
  obtain ⟨pv, hpv⟩ : ∃ pv, evalPrompt (.obj []) rA10 = .ok pv := ⟨_, rfl⟩
  have ee1 : evalOne llm (.obj []) rA10 = .ok (some evA10, 1) := by
    rw [evalOne_reply llm (.obj []) rA10 pv evalJsonStrScore rfl hpv (h4 pv)]
    exact rfl
  have ee2 : evalOne llm (.obj []) errB10 = .ok (some fwdB10, 0) := rfl
  have heval : evaluate_candidates llm
      { job_description := "jd", resumes := [rA10, errB10], job_analysis := .obj [],
        candidate_evaluations := [] } =
      .ok ({ job_description := "jd", resumes := [rA10, errB10], job_analysis := .obj [],
             candidate_evaluations := [evA10, fwdB10] }, 1) := by
    unfold evaluate_candidates
    simp only [evalLoop, ee1, ee2]
  obtain ⟨pv2, hpv2⟩ : ∃ pv2, genqPrompt (.obj []) evA10 = .ok pv2 := ⟨_, rfl⟩
  have ge1 : genOne llm (.obj []) evA10 = .ok (evA10q, 1) := by
    rw [genOne_reply llm (.obj []) evA10 pv2 noBracketsReply rfl hpv2 (h5 pv2)]
    exact rfl
  have ge2 : genOne llm (.obj []) fwdB10 = .ok (fwdB10, 0) := rfl
  have hgen : generate_questions llm
      { job_description := "jd", resumes := [rA10, errB10], job_analysis := .obj [],
        candidate_evaluations := [evA10, fwdB10] } =
      .ok ({ job_description := "jd", resumes := [rA10, errB10], job_analysis := .obj [],
             candidate_evaluations := [evA10q, fwdB10] }, 1) := by
    unfold generate_questions
    simp only [genLoop, ge1, ge2]
  have hsort : pySortedDesc [evA10q, fwdB10] =
      .error ("TypeError: comparison not supported between instances of these types") := rfl
  unfold process
  rw [hparse]
  simp only [hana, heval, hgen, hsort]

/-- Witness for C10 at the concrete dispatching oracle `wLLM10`. -/
theorem C10_sort_type_error_witness :
    scoreKey evA10q = .str ("90") ∧ scoreKey fwdB10 = .num 0 ∧
    pySortedDesc [evA10q, fwdB10] =
      .error ("TypeError: comparison not supported between instances of these types") ∧
    process wLLM10 ("jd") [upA10, upB10] =
      .error ("TypeError: comparison not supported between instances of these types") :=
  C10_sort_type_error wLLM10 w10_parseA w10_parseB w10_ana w10_eval w10_genq

/-- The full-run result of `allBracesLLM` on the single upload `upA10`. -/
def resAllBraces : PResult :=
  { job_analysis := .obj [],
    candidates := [.obj [("filename", .str "a"), ("interview_questions", .arr [])]] }

/-- Claim C1 (counterexample): with one résumé whose parse reply
contains no JSON span, the run completes with an empty candidate list —
0 entries for a batch of 1, so the output does not have one entry per
résumé. -/
theorem C1_cardinality_counterexample :
    process noJsonLLM ("jd") [upA10] =
      .ok ({ job_analysis := .obj [], candidates := [] }, 2) ∧
    ([] : List JVal).length ≠ [upA10].length :=
  ⟨rfl, by decide⟩

/-- Claim C1 (amended): a successful run yields at most one candidate
entry per résumé, and exactly one per résumé when every model reply
contains a brace span (so that no silent drop can occur); résumés whose
parse or evaluation reply contains no span are silently dropped. -/
theorem C1_cardinality_amended :
    (∀ (llm : LLM) (jd : String) (ups : List UploadedResume) (res : PResult) (n : Nat),
       process llm jd ups = .ok (res, n) → res.candidates.length ≤ ups.length) ∧
    (∀ (llm : LLM), SpanTotal llm →
       ∀ (jd : String) (ups : List UploadedResume) (res : PResult) (n : Nat),
         process llm jd ups = .ok (res, n) → res.candidates.length = ups.length) := by
  constructor
  · intro llm jd ups res n h
    obtain ⟨st1, n1, st3, n3, st4, n4, hparse, heval, hgen, hsort, _⟩ :=
      process_elim llm jd ups res n h
    obtain ⟨hploop, _, _, _⟩ := parse_resumes_elim llm jd ups st1 n1 hparse
    obtain ⟨heloop, _, _, _⟩ := evaluate_candidates_elim llm _ st3 n3 heval
    obtain ⟨hgloop, _, _, _⟩ := generate_questions_elim llm st3 st4 n4 hgen
    have h1 : res.candidates.length = st4.candidate_evaluations.length :=
      (pySortedDesc_perm _ _ hsort).length_eq
    have h2 : st4.candidate_evaluations.length = st3.candidate_evaluations.length :=
      genLoop_length llm _ _ _ _ hgloop
    have h3 : st3.candidate_evaluations.length ≤ (analyze_job llm st1).1.resumes.length :=
      evalLoop_length_le llm _ _ _ _ heloop
    have h4 : (analyze_job llm st1).1.resumes = st1.resumes :=
      (analyze_job_frame llm st1).1
    have h5 : st1.resumes.length ≤ ups.length :=
      parseLoop_length_le llm ups _ n1 hploop
    rw [h1, h2]
    rw [h4] at h3
    exact le_trans h3 h5
  · intro llm hst jd ups res n h
    obtain ⟨st1, n1, st3, n3, st4, n4, hparse, heval, hgen, hsort, _⟩ :=
      process_elim llm jd ups res n h
    obtain ⟨hploop, _, _, _⟩ := parse_resumes_elim llm jd ups st1 n1 hparse
    obtain ⟨heloop, _, _, _⟩ := evaluate_candidates_elim llm _ st3 n3 heval
    obtain ⟨hgloop, _, _, _⟩ := generate_questions_elim llm st3 st4 n4 hgen
    have h1 : res.candidates.length = st4.candidate_evaluations.length :=
      (pySortedDesc_perm _ _ hsort).length_eq
    have h2 : st4.candidate_evaluations.length = st3.candidate_evaluations.length :=
      genLoop_length llm _ _ _ _ hgloop
    have h3 : st3.candidate_evaluations.length = (analyze_job llm st1).1.resumes.length :=
      evalLoop_length_eq llm hst _ _ _ _ heloop
    have h4 : (analyze_job llm st1).1.resumes = st1.resumes :=
      (analyze_job_frame llm st1).1
    have h5 : st1.resumes.length = ups.length :=
      parseLoop_length_eq llm hst ups _ n1 hploop
    rw [h1, h2, h3, h4, h5]

lemma spanTotal_allBraces : SpanTotal allBracesLLM := by
  intro p s r h
  injection h with h
  rw [← h]
  decide

/-- Witness for C1's amended statement: under the span-total oracle
`allBracesLLM` the run keeps exactly one entry for the one résumé. -/
theorem C1_cardinality_amended_witness :
    SpanTotal allBracesLLM ∧
    process allBracesLLM ("jd") [upA10] = .ok (resAllBraces, 4) ∧
    resAllBraces.candidates.length = [upA10].length :=
  ⟨spanTotal_allBraces, rfl,
    C1_cardinality_amended.2 allBracesLLM spanTotal_allBraces ("jd") [upA10] resAllBraces 4 rfl⟩

/-- Claim C3 (counterexample): a résumé whose bytes fail utf-8 decoding
makes the whole parse stage — and the whole run — raise, because the
decode happens before the per-item `try` block. -/
theorem C3_parse_isolation_counterexample :
    parse_resumes noJsonLLM ("jd") [upBad] = .error ("UnicodeDecodeError: invalid start byte") ∧
    process noJsonLLM ("jd") [upBad] = .error ("UnicodeDecodeError: invalid start byte") :=
  ⟨rfl, rfl⟩

/-- Claim C3 (amended): inside the per-résumé `try` block, a raised
model call and a malformed JSON span are both captured as the résumé's
error-variant record (filename, error, raw-text sample); but a text
extraction (decode) failure escapes the stage, and a reply with no JSON
span produces no record at all rather than an error variant. -/
theorem C3_parse_isolation_amended :
    (∀ (llm : LLM) (u : UploadedResume) (text e : String),
       extractTextStep u = .ok text →
       llm (parsePrompt text) parseSystemPrompt = .error e →
       parseOne llm u = .ok (some (parseErrRecord u.filename e (pyTake text 2000)), 1)) ∧
    (∀ (llm : LLM) (u : UploadedResume) (text reply sp em : String),
       extractTextStep u = .ok text →
       llm (parsePrompt text) parseSystemPrompt = .ok reply →
       braceSpan reply = some sp →
       jsonLoads sp = .error em →
       parseOne llm u = .ok (some (parseErrRecord u.filename em (pyTake text 2000)), 1)) ∧
    (∀ (llm : LLM) (u : UploadedResume) (e : String),
       extractTextStep u = .error e → parseOne llm u = .error e) ∧
    (∀ (llm : LLM) (u : UploadedResume) (text reply : String),
       extractTextStep u = .ok text →
       llm (parsePrompt text) parseSystemPrompt = .ok reply →
       braceSpan reply = none →
       parseOne llm u = .ok (none, 1)) := by
  refine ⟨?_, ?_, ?_, ?_⟩
  · intro llm u text e hx hr
    rw [parseOne_text llm u text hx, parseTryBody_raise llm text u.filename e hr]
    exact rfl
  · intro llm u text reply sp em hx hr hbs hl
    rw [parseOne_text llm u text hx, parseTryBody_reply llm text u.filename reply hr]
    unfold parseRespond
    rw [hbs]
    simp only [hl]
    rfl
  · intro llm u e hx
    unfold parseOne
    rw [hx]
  · intro llm u text reply hx hr hbs
    rw [parseOne_text llm u text hx, parseTryBody_reply llm text u.filename reply hr]
    unfold parseRespond
    rw [hbs]
    exact rfl

/-- Witness for C3's amended statement at concrete oracles: a raising
call, a malformed span, a decode failure and a span-free reply. -/
theorem C3_parse_isolation_amended_witness :
    parseOne raiseLLM upA10 =
      .ok (some (parseErrRecord ("a") ("ExternalServiceError: boom") ("A")), 1) ∧
    parseOne badSpanLLM upA10 =
      .ok (some (parseErrRecord ("a") ("Expecting property name") ("A")), 1) ∧
    parseOne noJsonLLM upBad = .error ("UnicodeDecodeError: invalid start byte") ∧
    parseOne noJsonLLM upA10 = .ok (none, 1) := by
  refine ⟨?_, ?_, ?_, ?_⟩
  · exact C3_parse_isolation_amended.1 raiseLLM upA10 ("A") ("ExternalServiceError: boom") rfl rfl
  · exact C3_parse_isolation_amended.2.1 badSpanLLM upA10 ("A") badSpanReply badSpanReply
      ("Expecting property name") rfl rfl rfl rfl
  · exact C3_parse_isolation_amended.2.2.1 noJsonLLM upBad
      ("UnicodeDecodeError: invalid start byte") rfl
  · exact C3_parse_isolation_amended.2.2.2 noJsonLLM upA10 ("A") noSpanReply rfl rfl rfl

/-- Claim C7: once a record is in its error variant, later stages do
not enrich it — the evaluate stage forwards a parse-error résumé as an
error-variant evaluation (filename and error only) with zero model
calls, the question-generation stage returns an error-variant
evaluation untouched with zero model calls, and the assembler still
carries every evaluation through to the sorted output. -/
theorem C7_skip_on_error :
    (∀ (llm : LLM) (ja r : JVal) (fn er : JVal),
       r.hasKey ("error") = true →
       r.getItem ("filename") = .ok fn →
       r.getItem ("error") = .ok er →
       evalOne llm ja r = .ok (some (.obj [("filename", fn), ("error", er)]), 0)) ∧
    (∀ (llm : LLM) (ja ev : JVal),
       ev.hasKey ("error") = true → genOne llm ja ev = .ok (ev, 0)) ∧
    (∀ (l out : List JVal), pySortedDesc l = .ok out → ∀ e ∈ l, e ∈ out) := by
  refine ⟨?_, ?_, ?_⟩
  · intro llm ja r fn er hke hfn her
    unfold evalOne
    rw [if_pos hke]
    simp only [hfn, her]
  · intro llm ja ev hke
    unfold genOne
    rw [if_pos hke]
  · intro l out h e he
    exact (pySortedDesc_perm l out h).mem_iff.mpr he

/-- Witness for C7 at concrete error-variant records. -/
theorem C7_skip_on_error_witness :
    evalOne noJsonLLM (.obj []) fwdB10 =
      .ok (some (.obj [("filename", .str "b"), ("error", .str "Expecting property name")]), 0) ∧
    genOne noJsonLLM (.obj []) fwdB10 = .ok (fwdB10, 0) ∧
    (evA87 ∈ [evA87]) := by
  refine ⟨?_, ?_, ?_⟩
  · exact C7_skip_on_error.1 noJsonLLM (.obj []) fwdB10 (.str "b")
      (.str "Expecting property name") rfl rfl rfl
  · exact C7_skip_on_error.2.1 noJsonLLM (.obj []) fwdB10 rfl
  · exact C7_skip_on_error.2.2 [evA87] [evA87] rfl evA87 (by simp)

/-! ### Claims C4 and C5 -/

def ev40 : JVal := .obj [("filename", .str "w"), ("score", jnum 40)]
def ev90a : JVal := .obj [("filename", .str "x"), ("score", jnum 90)]
def evErr : JVal := .obj [("filename", .str "y"), ("error", .str "boom")]
def ev90b : JVal := .obj [("filename", .str "z"), ("score", jnum 90)]

/-- Claim C4: extraction takes the substring from the first opening to
the last closing brace (bracket for arrays) and parses it, so
commentary around a JSON object is tolerated; a text with no bracketed
span fails with the distinct no-JSON error, and a span that does not
parse fails with the distinct malformed-JSON error. -/
theorem C4_extractor_contract :
    (∀ (pre mid post : List Char), (∀ c ∈ pre, c ≠ lbraceC) → (∀ c ∈ post, c ≠ rbraceC) →
       extractJson (String.mk (pre ++ (lbraceC :: mid ++ [rbraceC]) ++ post)) =
         (match jsonLoads (String.mk (lbraceC :: mid ++ [rbraceC])) with
          | .ok v => .ok v
          | .error m => .error (.malformedJson m))) ∧
    (extractJson ("Sure! Here" ++ apoS ++ "s the JSON: \x7b\"a\":1\x7d Hope that helps!") =
       .ok (.obj [("a", jnum 1)])) ∧
    (extractJson ("no json here") = .error .noJsonFound) ∧
    (extractJson ("\x7ba:1,\x7d") = .error (.malformedJson ("Expecting property name"))) ∧
    (extractJsonArr ("Here are the questions: [\"q1\", \"q2\"] done") =
       .ok (.arr [.str "q1", .str "q2"])) ∧
    (extractJsonArr ("no array here") = .error .noJsonFound) := by
  refine ⟨?_, rfl, rfl, rfl, rfl, rfl⟩
  intro pre mid post hpre hpost
  unfold extractJson braceSpan
  have ht : (String.mk (pre ++ (lbraceC :: mid ++ [rbraceC]) ++ post)).toList =
      pre ++ (lbraceC :: mid ++ [rbraceC]) ++ post := rfl
  rw [ht, spanBetween_commentary lbraceC rbraceC pre mid post hpre hpost]
  exact rfl

/-- Witness for C4's commentary-tolerance statement at a concrete
decomposition. -/
theorem C4_extractor_contract_witness :
    extractJson (String.mk (("Sure, the JSON: ").toList ++
        (lbraceC :: ("\"a\":1").toList ++ [rbraceC]) ++ (" thanks!").toList)) =
      (match jsonLoads (String.mk (lbraceC :: ("\"a\":1").toList ++ [rbraceC])) with
       | .ok v => .ok v
       | .error m => .error (.malformedJson m)) :=
  C4_extractor_contract.1 (("Sure, the JSON: ").toList) (("\"a\":1").toList)
    ((" thanks!").toList) (by decide) (by decide)

/-- Claim C5: result assembly sorts by score descending with a missing
score (in particular every error variant) treated as 0, stably for
ties: the spotlighted instance [40, 90, error, 90] sorts to
[90, 90, 40, error] with the two 90s in original order, and in general
on numeric-or-defaulted keys the sort succeeds and returns the unique
stable descending reordering (permutation, pairwise descending keys,
and per-key filter preservation). -/
theorem C5_sort_stability :
    (pySortedDesc [ev40, ev90a, evErr, ev90b] = .ok [ev90a, ev90b, ev40, evErr]) ∧
    (∀ l : List JVal, (∀ e ∈ l, ∃ q : Rat, scoreKey e = .num q) →
       ∃ out, pySortedDesc l = .ok out ∧ out.Perm l ∧
         out.Pairwise (fun a b => ratKey b ≤ ratKey a) ∧
         (∀ q : Rat, out.filter (fun e => decide (ratKey e = q)) =
           l.filter (fun e => decide (ratKey e = q)))) := by
  refine ⟨rfl, ?_⟩
  intro l hl
  exact ⟨sortDescP l, sortDescE_of_num l hl, sortDescP_perm l, sortDescP_pairwise l,
    fun q => sortDescP_filter l q⟩

/-- Witness for C5's general statement at the spotlighted batch. -/
theorem C5_sort_stability_witness :
    ∃ out, pySortedDesc [ev40, ev90a, evErr, ev90b] = .ok out ∧
      out.Perm [ev40, ev90a, evErr, ev90b] ∧
      out.Pairwise (fun a b => ratKey b ≤ ratKey a) ∧
      (∀ q : Rat, out.filter (fun e => decide (ratKey e = q)) =
        [ev40, ev90a, evErr, ev90b].filter (fun e => decide (ratKey e = q))) :=
  C5_sort_stability.2 [ev40, ev90a, evErr, ev90b] (by
    intro e he
    fin_cases he
    · exact ⟨_, rfl⟩
    · exact ⟨_, rfl⟩
    · exact ⟨_, rfl⟩
    · exact ⟨_, rfl⟩)

/-! ### Claims C6 and C8 -/

/-- Witness oracle for a single-résumé run whose question-generation
reply contains no bracketed span. -/
def wLLM6 : LLM := fun _ s =>
  if s = genqSystemPrompt then .ok noBracketsReply
  else if s = analyzeSystemPrompt then .ok jaEmptyReply
  else if s = evalSystemPrompt then .ok evalJsonNum
  else .ok resumeJsonA

lemma w6_parse : ∀ p, wLLM6 p parseSystemPrompt = .ok resumeJsonA := fun p => by
  unfold wLLM6
  rw [if_neg nePG, if_neg nePA, if_neg nePE]

lemma w6_ana : ∀ p, wLLM6 p analyzeSystemPrompt = .ok jaEmptyReply := fun p => by
  unfold wLLM6
  rw [if_neg neAG, if_pos rfl]

lemma w6_eval : ∀ p, wLLM6 p evalSystemPrompt = .ok evalJsonNum := fun p => by
  unfold wLLM6
  rw [if_neg neEG, if_neg neEA, if_pos rfl]

lemma w6_genq : ∀ p, wLLM6 p genqSystemPrompt = .ok noBracketsReply := fun p => by
  unfold wLLM6
  rw [if_pos rfl]

def res6 : PResult := { job_analysis := .obj [], candidates := [evA87q] }

lemma run6 : process wLLM6 ("jd") [upA10] = .ok (res6, 4) := by
  have e1 : parseOne wLLM6 upA10 = .ok (some rA10, 1) := by
    rw [parseOne_text wLLM6 upA10 ("A") rfl,
        parseTryBody_reply wLLM6 ("A") upA10.filename resumeJsonA (w6_parse _)]
    exact rfl
  have hparse : parse_resumes wLLM6 ("jd") [upA10] =
      .ok ({ job_description := "jd", resumes := [rA10], job_analysis := .obj [],
             candidate_evaluations := [] }, 1) := by
    unfold parse_resumes
    simp only [parseLoop, e1]
  have hana : analyze_job wLLM6
      { job_description := "jd", resumes := [rA10], job_analysis := .obj [],
        candidate_evaluations := [] } =
      ({ job_description := "jd", resumes := [rA10], job_analysis := .obj [],
         candidate_evaluations := [] }, 1) := by
    rw [analyze_job_reply wLLM6 _ jaEmptyReply (w6_ana _)]
    exact rfl
  obtain ⟨pv, hpv⟩ : ∃ pv, evalPrompt (.obj []) rA10 = .ok pv := ⟨_, rfl⟩
  have ee1 : evalOne wLLM6 (.obj []) rA10 = .ok (some evA87, 1) := by
    rw [evalOne_reply wLLM6 (.obj []) rA10 pv evalJsonNum rfl hpv (w6_eval pv)]
    exact rfl
  have heval : evaluate_candidates wLLM6
      { job_description := "jd", resumes := [rA10], job_analysis := .obj [],
        candidate_evaluations := [] } =
      .ok ({ job_description := "jd", resumes := [rA10], job_analysis := .obj [],
             candidate_evaluations := [evA87] }, 1) := by
    unfold evaluate_candidates
    simp only [evalLoop, ee1]
  obtain ⟨pv2, hpv2⟩ : ∃ pv2, genqPrompt (.obj []) evA87 = .ok pv2 := ⟨_, rfl⟩
  have ge1 : genOne wLLM6 (.obj []) evA87 = .ok (evA87q, 1) := by
    rw [genOne_reply wLLM6 (.obj []) evA87 pv2 noBracketsReply rfl hpv2 (w6_genq pv2)]
    exact rfl
  have hgen : generate_questions wLLM6
      { job_description := "jd", resumes := [rA10], job_analysis := .obj [],
        candidate_evaluations := [evA87] } =
      .ok ({ job_description := "jd", resumes := [rA10], job_analysis := .obj [],
             candidate_evaluations := [evA87q] }, 1) := by
    unfold generate_questions
    simp only [genLoop, ge1]
  have hsort : pySortedDesc [evA87q] = .ok [evA87q] := rfl
  unfold process
  rw [hparse]
  simp only [hana, heval, hgen, hsort]
  rfl

/-- Claim C6 (counterexample): a non-error evaluation in the final
output whose question-generation reply contained no bracketed span
carries `interview_questions` bound to the empty array — the field is
present but empty, refuting "non-empty". -/
theorem C6_question_totality_counterexample :
    process wLLM6 ("jd") [upA10] = .ok (res6, 4) ∧
    evA87q ∈ res6.candidates ∧
    evA87q.hasKey ("error") = false ∧
    evA87q.get ("interview_questions") .null = .arr [] :=
  ⟨run6, by simp [res6], rfl, rfl⟩

/-- Claim C6 (amended): for every non-error evaluation in the final
output of a successful run, `interview_questions` is present and bound
to an array — real questions, the empty array when the reply had no
bracketed span, or a single error string on a raised exception; it can
be empty. -/
theorem C6_question_totality_amended :
    ∀ (llm : LLM) (jd : String) (ups : List UploadedResume) (res : PResult) (n : Nat),
      process llm jd ups = .ok (res, n) →
      ∀ ev ∈ res.candidates, ev.hasKey ("error") = false →
        ev.hasKey ("interview_questions") = true ∧
        ∃ qs : List JVal, ev.get ("interview_questions") .null = .arr qs := by
  intro llm jd ups res n h ev hev hke
  obtain ⟨st1, n1, st3, n3, st4, n4, hparse, heval, hgen, hsort, _⟩ :=
    process_elim llm jd ups res n h
  obtain ⟨hgloop, _, _, _⟩ := generate_questions_elim llm st3 st4 n4 hgen
  have hmem : ev ∈ st4.candidate_evaluations :=
    (pySortedDesc_perm _ _ hsort).mem_iff.mp hev
  obtain ⟨ev0, hev0, m, hm⟩ := genLoop_mem llm _ _ _ _ hgloop ev hmem
  rcases genOne_cases llm _ ev0 ev m hm with ⟨hk0, heq, _⟩ | ⟨_, _, qs, hget, hhas⟩
  · rw [← heq] at hk0
    rw [hk0] at hke
    exact absurd hke (by simp)
  · exact ⟨hhas, qs, hget⟩

/-- Witness for C6's amended statement at the `wLLM6` run. -/
theorem C6_question_totality_amended_witness :
    evA87q.hasKey ("interview_questions") = true ∧
    ∃ qs : List JVal, evA87q.get ("interview_questions") .null = .arr qs :=
  C6_question_totality_amended wLLM6 ("jd") [upA10] res6 4 run6 evA87q (by simp [res6]) rfl

/-- A post-parse state with an empty prior job analysis, as `parse_resumes`
leaves it. -/
def stX : WState :=
  { job_description := "jd", resumes := [], job_analysis := .obj [],
    candidate_evaluations := [] }

/-- Claim C8 (counterexample): when the analyze reply contains no brace
span, the stage silently leaves the previous `job_analysis` in place; the
result carries neither any requirements field (no title) nor the error
variant, so the stage does not always produce one requirements record or
its error variant. -/
theorem C8_analyze_degradation_counterexample :
    (analyze_job noJsonLLM stX).1.job_analysis = stX.job_analysis ∧
    JVal.hasKey ((analyze_job noJsonLLM stX).1.job_analysis) ("error") = false ∧
    JVal.hasKey ((analyze_job noJsonLLM stX).1.job_analysis) ("title") = false := by
  refine ⟨?_, ?_, ?_⟩ <;> exact rfl

/-- Claim C8 (amended): the analyze stage never raises and makes exactly
one model call; its `job_analysis` outcome is a freshly parsed record, the
prior value kept unchanged (when the reply has no brace span), or the
error variant; an error-variant analysis renders in the evaluation prompt
exactly as an empty analysis (every requirement field defaulting to N/A or
an empty list), and the evaluate loop still makes one model call per
non-error résumé whatever the analysis outcome was. -/
theorem C8_analyze_degradation_amended (llm : LLM) (st : WState) :
    ((analyze_job llm st).1.resumes = st.resumes ∧ (analyze_job llm st).2 = 1) ∧
    ((∃ reply sp ja,
        llm (analyzePrompt st.job_description) analyzeSystemPrompt = .ok reply ∧
        braceSpan reply = some sp ∧ jsonLoads sp = .ok ja ∧
        (analyze_job llm st).1.job_analysis = ja) ∨
      ((analyze_job llm st).1.job_analysis = st.job_analysis) ∨
      (∃ e, (analyze_job llm st).1.job_analysis = .obj [("error", .str e)])) ∧
    (∀ e r, evalPrompt (.obj [("error", .str e)]) r = evalPrompt (.obj []) r) ∧
    (∀ rs evs n,
        evalLoop llm (analyze_job llm st).1.job_analysis rs = .ok (evs, n) →
        n = (rs.filter (fun r => !(r.hasKey ("error")))).length) := by
  refine ⟨⟨(analyze_job_frame llm st).1, (analyze_job_frame llm st).2.2.2⟩,
    analyze_job_outcome llm st, fun e r => rfl,
    fun rs evs n h => evalLoop_calls llm _ rs evs n h⟩

/-- Witness for C8's amended statement: at the no-span oracle the analysis
keeps its prior empty value, and the evaluate loop over one ordinary and
one error-variant record makes exactly one model call, matching the
theorem's call-count conjunct. -/
theorem C8_analyze_degradation_amended_witness :
    evalLoop noJsonLLM (analyze_job noJsonLLM stX).1.job_analysis [rA10, fwdB10] =
        .ok ([fwdB10], 1) ∧
    1 = (([rA10, fwdB10]).filter (fun r => !(r.hasKey ("error")))).length := by
  have hrun : evalLoop noJsonLLM (analyze_job noJsonLLM stX).1.job_analysis
      [rA10, fwdB10] = .ok ([fwdB10], 1) := by exact rfl
  exact ⟨hrun, (C8_analyze_degradation_amended noJsonLLM stX).2.2.2 _ _ _ hrun⟩

/-- Witness oracle for the record-shape run: résumé A parses and gets a
numeric evaluation, résumé B's parse reply has a brace span that is not
valid JSON, so its record enters the error variant. -/
def wLLM9 : LLM := fun p s =>
  if s = genqSystemPrompt then .ok noBracketsReply
  else if s = analyzeSystemPrompt then .ok jaEmptyReply
  else if s = evalSystemPrompt then .ok evalJsonNum
  else if p = parsePrompt ("BB") then .ok badSpanReply
  else .ok resumeJsonA

lemma w9_parseA : wLLM9 (parsePrompt ("A")) parseSystemPrompt = .ok resumeJsonA := by
  unfold wLLM9
  rw [if_neg nePG, if_neg nePA, if_neg nePE, if_neg neqAB]

lemma w9_parseB : wLLM9 (parsePrompt ("BB")) parseSystemPrompt = .ok badSpanReply := by
  unfold wLLM9
  rw [if_neg nePG, if_neg nePA, if_neg nePE, if_pos rfl]

lemma w9_ana : ∀ p, wLLM9 p analyzeSystemPrompt = .ok jaEmptyReply := fun p => by
  unfold wLLM9
  rw [if_neg neAG, if_pos rfl]

lemma w9_eval : ∀ p, wLLM9 p evalSystemPrompt = .ok evalJsonNum := fun p => by
  unfold wLLM9
  rw [if_neg neEG, if_neg neEA, if_pos rfl]

lemma w9_genq : ∀ p, wLLM9 p genqSystemPrompt = .ok noBracketsReply := fun p => by
  unfold wLLM9
  rw [if_pos rfl]

def res9 : PResult := { job_analysis := .obj [], candidates := [evA87q, fwdB10] }

lemma run9 : process wLLM9 ("jd") [upA10, upB10] = .ok (res9, 5) := by
  have e1 : parseOne wLLM9 upA10 = .ok (some rA10, 1) := by
    rw [parseOne_text wLLM9 upA10 ("A") rfl,
        parseTryBody_reply wLLM9 ("A") upA10.filename resumeJsonA w9_parseA]
    exact rfl
  have e2 : parseOne wLLM9 upB10 = .ok (some errB10, 1) := by
    rw [parseOne_text wLLM9 upB10 ("BB") rfl,
        parseTryBody_reply wLLM9 ("BB") upB10.filename badSpanReply w9_parseB]
    exact rfl
  have hparse : parse_resumes wLLM9 ("jd") [upA10, upB10] =
      .ok ({ job_description := "jd", resumes := [rA10, errB10], job_analysis := .obj [],
             candidate_evaluations := [] }, 2) := by
    unfold parse_resumes
    simp only [parseLoop, e1, e2]
  have hana : analyze_job wLLM9
      { job_description := "jd", resumes := [rA10, errB10], job_analysis := .obj [],
        candidate_evaluations := [] } =
      ({ job_description := "jd", resumes := [rA10, errB10], job_analysis := .obj [],
         candidate_evaluations := [] }, 1) := by
    rw [analyze_job_reply wLLM9 _ jaEmptyReply (w9_ana _)]
    exact rfl
  obtain ⟨pv, hpv⟩ : ∃ pv, evalPrompt (.obj []) rA10 = .ok pv := ⟨_, rfl⟩
  have ee1 : evalOne wLLM9 (.obj []) rA10 = .ok (some evA87, 1) := by
    rw [evalOne_reply wLLM9 (.obj []) rA10 pv evalJsonNum rfl hpv (w9_eval pv)]
    exact rfl
  have ee2 : evalOne wLLM9 (.obj []) errB10 = .ok (some fwdB10, 0) := rfl
  have heval : evaluate_candidates wLLM9
      { job_description := "jd", resumes := [rA10, errB10], job_analysis := .obj [],
        candidate_evaluations := [] } =
      .ok ({ job_description := "jd", resumes := [rA10, errB10], job_analysis := .obj [],
             candidate_evaluations := [evA87, fwdB10] }, 1) := by
    unfold evaluate_candidates
    simp only [evalLoop, ee1, ee2]
  obtain ⟨pv2, hpv2⟩ : ∃ pv2, genqPrompt (.obj []) evA87 = .ok pv2 := ⟨_, rfl⟩
  have ge1 : genOne wLLM9 (.obj []) evA87 = .ok (evA87q, 1) := by
    rw [genOne_reply wLLM9 (.obj []) evA87 pv2 noBracketsReply rfl hpv2 (w9_genq pv2)]
    exact rfl
  have ge2 : genOne wLLM9 (.obj []) fwdB10 = .ok (fwdB10, 0) := rfl
  have hgen : generate_questions wLLM9
      { job_description := "jd", resumes := [rA10, errB10], job_analysis := .obj [],
        candidate_evaluations := [evA87, fwdB10] } =
      .ok ({ job_description := "jd", resumes := [rA10, errB10], job_analysis := .obj [],
             candidate_evaluations := [evA87q, fwdB10] }, 1) := by
    unfold generate_questions
    simp only [genLoop, ge1, ge2]
  have hsort : pySortedDesc [evA87q, fwdB10] = .ok [evA87q, fwdB10] := rfl
  unfold process
  rw [hparse]
  simp only [hana, heval, hgen, hsort]
  rfl

/-- Claim C9 (counterexample): the forwarded parse-error evaluation in a
completed run's output carries only `filename` and `error` — neither a
`name` nor an `email` field, contradicting the claim that every
evaluation carries all three. -/
theorem C9_record_shape_counterexample :
    process wLLM9 ("jd") [upA10, upB10] = .ok (res9, 5) ∧
    fwdB10 ∈ res9.candidates ∧
    fwdB10.hasKey ("filename") = true ∧
    fwdB10.hasKey ("name") = false ∧
    fwdB10.hasKey ("email") = false :=
  ⟨run9, by simp [res9], rfl, rfl, rfl⟩

/-- Claim C9 (amended): every evaluation the evaluate stage emits carries
`filename`; the exception-handler variant carries `filename`, `name`
(defaulting to Unknown) and `error` but no `email`; and the forwarded
parse-error variant carries only `filename` and `error`, with neither
`name` nor `email`. -/
theorem C9_record_shape_amended :
    (∀ (llm : LLM) (ja : JVal) (rs evs : List JVal) (n : Nat),
        evalLoop llm ja rs = .ok (evs, n) →
        ∀ e ∈ evs, JVal.hasKey e ("filename") = true) ∧
    (∀ (r : JVal) (e : String) (fn : JVal), r.getItem ("filename") = .ok fn →
        evalExceptHandler r e =
          .ok (.obj [("filename", fn), ("name", r.get ("name") (.str ("Unknown"))),
                     ("error", .str e)])) ∧
    (∀ (fn nm : JVal) (e : String),
        JVal.hasKey (.obj [("filename", fn), ("name", nm), ("error", .str e)]) ("email")
          = false) ∧
    (∀ (fn er : JVal),
        JVal.hasKey (.obj [("filename", fn), ("error", er)]) ("name") = false ∧
        JVal.hasKey (.obj [("filename", fn), ("error", er)]) ("email") = false) := by
  refine ⟨?_, ?_, fun fn nm e => rfl, fun fn er => ⟨rfl, rfl⟩⟩
  · intro llm ja rs evs n h e he
    obtain ⟨r, hr, m, hm⟩ := evalLoop_mem llm ja rs evs n h e he
    rcases evalOne_cases llm ja r (some e) m hm with
      ⟨_, _, fn, er, _, _, ho⟩ | ⟨_, _, hcase⟩
    · simp only [Option.some.injEq] at ho
      rw [ho]
      exact rfl
    · rcases hcase with ⟨hnone, _⟩ | ⟨e2, ho, hk⟩
      · exact absurd hnone (by simp)
      · simp only [Option.some.injEq] at ho
        rw [ho]
        exact hk
  · intro r e fn hfn
    unfold evalExceptHandler
    simp only [hfn]

/-- Witness for C9's amended statement at the concrete evaluate loop of
the `wLLM9` run and the concrete handler input `rA10`. -/
theorem C9_record_shape_amended_witness :
    (∀ e ∈ [evA87, fwdB10], JVal.hasKey e ("filename") = true) ∧
    evalExceptHandler rA10 ("boom") =
      .ok (.obj [("filename", .str "a"), ("name", .str "Al"), ("error", .str "boom")]) ∧
    JVal.hasKey fwdB10 ("name") = false ∧
    JVal.hasKey fwdB10 ("email") = false := by
  have hloop : evalLoop wLLM9 (.obj []) [rA10, errB10] = .ok ([evA87, fwdB10], 1) := by
    obtain ⟨pv, hpv⟩ : ∃ pv, evalPrompt (.obj []) rA10 = .ok pv := ⟨_, rfl⟩
    have ee1 : evalOne wLLM9 (.obj []) rA10 = .ok (some evA87, 1) := by
      rw [evalOne_reply wLLM9 (.obj []) rA10 pv evalJsonNum rfl hpv (w9_eval pv)]
      exact rfl
    have ee2 : evalOne wLLM9 (.obj []) errB10 = .ok (some fwdB10, 0) := rfl
    simp only [evalLoop, ee1, ee2]
  refine ⟨C9_record_shape_amended.1 wLLM9 (.obj []) [rA10, errB10] [evA87, fwdB10] 1 hloop,
    C9_record_shape_amended.2.1 rA10 ("boom") (.str "a") rfl,
    (C9_record_shape_amended.2.2.2 (.str "b") (.str "Expecting property name")).1,
    (C9_record_shape_amended.2.2.2 (.str "b") (.str "Expecting property name")).2⟩

/-- Witness oracle for the dropped-résumé run: résumé B's parse reply
contains no JSON span at all, every other reply succeeds. -/
def wLLM2 : LLM := fun p s =>
  if s = genqSystemPrompt then .ok noBracketsReply
  else if s = analyzeSystemPrompt then .ok jaEmptyReply
  else if s = evalSystemPrompt then .ok evalJsonNum
  else if p = parsePrompt ("BB") then .ok noSpanReply
  else .ok resumeJsonA

lemma w2_parseA : wLLM2 (parsePrompt ("A")) parseSystemPrompt = .ok resumeJsonA := by
  unfold wLLM2
  rw [if_neg nePG, if_neg nePA, if_neg nePE, if_neg neqAB]

lemma w2_parseB : wLLM2 (parsePrompt ("BB")) parseSystemPrompt = .ok noSpanReply := by
  unfold wLLM2
  rw [if_neg nePG, if_neg nePA, if_neg nePE, if_pos rfl]

lemma w2_ana : ∀ p, wLLM2 p analyzeSystemPrompt = .ok jaEmptyReply := fun p => by
  unfold wLLM2
  rw [if_neg neAG, if_pos rfl]

lemma w2_eval : ∀ p, wLLM2 p evalSystemPrompt = .ok evalJsonNum := fun p => by
  unfold wLLM2
  rw [if_neg neEG, if_neg neEA, if_pos rfl]

lemma w2_genq : ∀ p, wLLM2 p genqSystemPrompt = .ok noBracketsReply := fun p => by
  unfold wLLM2
  rw [if_pos rfl]

def res2 : PResult := { job_analysis := .obj [], candidates := [evA87q] }

/-- Dropping semantics of a span-less parse reply: a résumé whose
`parseOne` yields no record and one call contributes nothing to the
parse loop's output except that one call, wherever it sits in the
batch. -/
lemma parseLoop_drop (llm : LLM) (u : UploadedResume)
    (hu : parseOne llm u = .ok (none, 1)) :
    ∀ (l1 l2 : List UploadedResume),
      parseLoop llm (l1 ++ u :: l2) =
        (match parseLoop llm (l1 ++ l2) with
         | .error e => .error e
         | .ok (rs, m) => .ok (rs, m + 1)) := by
  intro l1
  induction l1 with
  | nil =>
    intro l2
    simp only [List.nil_append, parseLoop, hu]
    cases hl : parseLoop llm l2 with
    | error e => rfl
    | ok pr =>
      obtain ⟨rs, m⟩ := pr
      simp [Nat.add_comm]
  | cons v l1 ih =>
    intro l2
    simp only [List.cons_append, parseLoop, List.append_eq]
    rw [ih l2]
    cases hv : parseOne llm v with
    | error e => rfl
    | ok pr =>
      obtain ⟨o, n⟩ := pr
      cases hl : parseLoop llm (l1 ++ l2) with
      | error e => rfl
      | ok pr2 =>
        obtain ⟨rs, m⟩ := pr2
        cases o with
        | some w => rfl
        | none => rfl

/-- Claim C2 (amended): a résumé whose parse reply contains no embedded
JSON span is silently dropped at the parse stage, raising nothing and
leaving no error record: on any batch containing it, the whole run
returns exactly the result of the run on the batch with that résumé
removed, plus one model call.  In particular, when every other step
succeeds, the output has N−1 entries and no error-variant evaluation
arises from the affected résumé. -/
theorem C2_error_containment_amended (llm : LLM) (u : UploadedResume)
    (hu : parseOne llm u = .ok (none, 1))
    (ups1 ups2 : List UploadedResume) (jd : String) :
    process llm jd (ups1 ++ u :: ups2) =
      (match process llm jd (ups1 ++ ups2) with
       | .error e => .error e
       | .ok (res, n) => .ok (res, n + 1)) := by
  unfold process parse_resumes
  rw [parseLoop_drop llm u hu ups1 ups2]
  cases hl : parseLoop llm (ups1 ++ ups2) with
  | error e => rfl
  | ok pr =>
    obtain ⟨parsed, n1⟩ := pr
    simp only []
    cases h2 : analyze_job llm
        { job_description := jd, resumes := parsed, job_analysis := .obj [],
          candidate_evaluations := [] } with
    | mk st2 n2 =>
      simp only []
      cases h3 : evaluate_candidates llm st2 with
      | error e => rfl
      | ok pr3 =>
        obtain ⟨st3, n3⟩ := pr3
        simp only []
        cases h4 : generate_questions llm st3 with
        | error e => rfl
        | ok pr4 =>
          obtain ⟨st4, n4⟩ := pr4
          simp only []
          cases h5 : pySortedDesc st4.candidate_evaluations with
          | error e => rfl
          | ok cands =>
            simp only [Except.ok.injEq, Prod.mk.injEq]
            exact ⟨trivial, by omega⟩

lemma run2 : process wLLM2 ("jd") [upA10, upB10] = .ok (res2, 5) := by
  have e1 : parseOne wLLM2 upA10 = .ok (some rA10, 1) := by
    rw [parseOne_text wLLM2 upA10 ("A") rfl,
        parseTryBody_reply wLLM2 ("A") upA10.filename resumeJsonA w2_parseA]
    exact rfl
  have e2 : parseOne wLLM2 upB10 = .ok (none, 1) := by
    rw [parseOne_text wLLM2 upB10 ("BB") rfl,
        parseTryBody_reply wLLM2 ("BB") upB10.filename noSpanReply w2_parseB]
    exact rfl
  have hparse : parse_resumes wLLM2 ("jd") [upA10, upB10] =
      .ok ({ job_description := "jd", resumes := [rA10], job_analysis := .obj [],
             candidate_evaluations := [] }, 2) := by
    unfold parse_resumes
    simp only [parseLoop, e1, e2]
  have hana : analyze_job wLLM2
      { job_description := "jd", resumes := [rA10], job_analysis := .obj [],
        candidate_evaluations := [] } =
      ({ job_description := "jd", resumes := [rA10], job_analysis := .obj [],
         candidate_evaluations := [] }, 1) := by
    rw [analyze_job_reply wLLM2 _ jaEmptyReply (w2_ana _)]
    exact rfl
  obtain ⟨pv, hpv⟩ : ∃ pv, evalPrompt (.obj []) rA10 = .ok pv := ⟨_, rfl⟩
  have ee1 : evalOne wLLM2 (.obj []) rA10 = .ok (some evA87, 1) := by
    rw [evalOne_reply wLLM2 (.obj []) rA10 pv evalJsonNum rfl hpv (w2_eval pv)]
    exact rfl
  have heval : evaluate_candidates wLLM2
      { job_description := "jd", resumes := [rA10], job_analysis := .obj [],
        candidate_evaluations := [] } =
      .ok ({ job_description := "jd", resumes := [rA10], job_analysis := .obj [],
             candidate_evaluations := [evA87] }, 1) := by
    unfold evaluate_candidates
    simp only [evalLoop, ee1]
  obtain ⟨pv2, hpv2⟩ : ∃ pv2, genqPrompt (.obj []) evA87 = .ok pv2 := ⟨_, rfl⟩
  have ge1 : genOne wLLM2 (.obj []) evA87 = .ok (evA87q, 1) := by
    rw [genOne_reply wLLM2 (.obj []) evA87 pv2 noBracketsReply rfl hpv2 (w2_genq pv2)]
    exact rfl
  have hgen : generate_questions wLLM2
      { job_description := "jd", resumes := [rA10], job_analysis := .obj [],
        candidate_evaluations := [evA87] } =
      .ok ({ job_description := "jd", resumes := [rA10], job_analysis := .obj [],
             candidate_evaluations := [evA87q] }, 1) := by
    unfold generate_questions
    simp only [genLoop, ge1]
  have hsort : pySortedDesc [evA87q] = .ok [evA87q] := rfl
  unfold process
  rw [hparse]
  simp only [hana, heval, hgen, hsort]
  rfl

/-- Claim C2 (counterexample): two résumés, exactly one of whose parse
replies has no JSON span; the run completes without exception but the
output has one entry and zero error-variant evaluations — not the
claimed one error variant plus N−1 full evaluations. -/
theorem C2_error_containment_counterexample :
    process wLLM2 ("jd") [upA10, upB10] = .ok (res2, 5) ∧
    List.length [upA10, upB10] = 2 ∧
    res2.candidates.length = 1 ∧
    (res2.candidates.filter (fun e => e.hasKey ("error"))).length = 0 :=
  ⟨run2, rfl, rfl, rfl⟩

/-- Witness for C2's amended statement: résumé B's parse reply has no
span, and the two-résumé run returns the one-résumé run's result with
one extra model call. -/
theorem C2_error_containment_amended_witness :
    parseOne wLLM2 upB10 = .ok (none, 1) ∧
    process wLLM2 ("jd") ([upA10] ++ upB10 :: []) =
      (match process wLLM2 ("jd") ([upA10] ++ []) with
       | .error e => .error e
       | .ok (res, n) => .ok (res, n + 1)) := by
  have hu : parseOne wLLM2 upB10 = .ok (none, 1) := by
    rw [parseOne_text wLLM2 upB10 ("BB") rfl,
        parseTryBody_reply wLLM2 ("BB") upB10.filename noSpanReply w2_parseB]
    exact rfl
  exact ⟨hu, C2_error_containment_amended wLLM2 upB10 hu [upA10] [] ("jd")⟩
